import Mathlib

/-!
Verification of the API-Threat-Detection-Model alert pipeline.

This file gives a shallow embedding, in Lean 4, of the parts of the
repository that the specification claims talk about:

* `src/alert_parser.py` — `parse_log_item`, `compute_severity`,
  `severity_level`, `load_logs`;
* `src/utils_clean.py` — `normalize_for_tfidf`, `calc_entropy` and the
  feature counters consumed by the severity scorer;
* `src/infer_clean.py` — `preprocess` (the feature-vector builder);
* `src/alert_ws_server.py` — `broadcast` and the per-message step of
  `ws_alerts`;
* `src/dashboard_api.py` — `read_jsonl` and `stats`.

Modelling conventions, used consistently below:

* Python JSON values (the output of `json.loads`) are the inductive type
  `Json`; Python `bool` is kept separate from `int` because the source
  inspects `isinstance(x, (int, float))`, and Python floats are modelled
  as exact rationals (the claims never depend on binary rounding).
* Python strings are modelled as `List Char` internally (`String` at the API
  edges); all character classes (`isalnum`, regex `\w`,
  `\s`, `str.lower`) use their ASCII meaning, which is exact for every
  input any claim below evaluates.
* Python exceptions are modelled with `Except String`; a raised
  `AttributeError` becomes `Except.error`.
* Functions whose Python counterpart loops over data of statically
  unknown shape are written with mutual structural recursion (or an
  explicit fuel argument) so that every definition is executable and
  kernel-reducible.
-/

namespace ATDM

/-- Single-quote character, kept out of string literals on purpose. -/
def squote : Char := Char.ofNat 39

/-- Backslash character. -/
def bslash : Char := Char.ofNat 92

/-- Opening curly brace character. -/
def obrace : Char := Char.ofNat 123

/-- Closing curly brace character. -/
def cbrace : Char := Char.ofNat 125

/-- ASCII decimal digit test (regex `\d`, Python `str.isdigit` on ASCII). -/
def isDigitChar (c : Char) : Bool := 48 ≤ c.toNat && c.toNat ≤ 57

/-- ASCII uppercase letter test. -/
def isUpperChar (c : Char) : Bool := 65 ≤ c.toNat && c.toNat ≤ 90

/-- ASCII lowercase letter test. -/
def isLowerChar (c : Char) : Bool := 97 ≤ c.toNat && c.toNat ≤ 122

/-- ASCII model of Python `str.isalnum`. -/
def isAlnumChar (c : Char) : Bool :=
  isDigitChar c || isUpperChar c || isLowerChar c

/-- ASCII model of the regex class `\w`: alphanumeric or underscore. -/
def isWordChar (c : Char) : Bool := isAlnumChar c || c = '_'

/-- ASCII model of Python whitespace (`str.isspace`, regex `\s`):
space, tab, newline, carriage return, vertical tab, form feed. -/
def isSpaceChar (c : Char) : Bool :=
  c.toNat = 32 || (9 ≤ c.toNat && c.toNat ≤ 13)

/-- ASCII model of Python `str.lower` on one character. -/
def lowerChar (c : Char) : Char :=
  if isUpperChar c then Char.ofNat (c.toNat + 32) else c

/-- Decimal digits of a natural number, most significant first.  The
fuel argument makes the recursion structural; `natStr` supplies enough
fuel for any input. -/
def natStrAux : Nat → Nat → List Char → List Char
  | 0, _, acc => acc
  | fuel + 1, n, acc =>
    let d := Char.ofNat (48 + n % 10)
    if n < 10 then d :: acc else natStrAux fuel (n / 10) (d :: acc)

/-- Decimal rendering of a natural number (Python `str` on a
non-negative int). -/
def natStr (n : Nat) : List Char := natStrAux (n + 1) n []

/-- Decimal rendering of an integer (Python `str` on an int). -/
def intStr : Int → List Char
  | .ofNat n => natStr n
  | .negSucc m => '-' :: natStr (m + 1)

/-- Left-pad a digit string with zeros to the given width. -/
def padZeros (width : Nat) (n : Nat) : List Char :=
  let s := natStr n
  List.replicate (width - s.length) '0' ++ s

/-- Drop trailing zero characters but keep at least one digit. -/
def trimTrailingZeros (l : List Char) : List Char :=
  let r := l.reverse.dropWhile (· = '0')
  if r = [] then ['0'] else r.reverse

/-- Json values as produced by Python `json.loads`: the dynamic value
space flowing through the alert pipeline.  Objects are association
lists in insertion order (the parser keeps keys unique, matching dict
semantics). -/
inductive Json where
  | null : Json
  | bool : Bool → Json
  | int : Int → Json
  | float : Rat → Json
  | str : String → Json
  | arr : List Json → Json
  | obj : List (String × Json) → Json

/-- Python truthiness (`bool(x)`) of a JSON-shaped value: `None`, `False`,
zero, the empty string, the empty list and the empty dict are falsy. -/
def jtruthy : Json → Bool
  | .null => false
  | .bool b => b
  | .int n => n ≠ 0
  | .float q => q ≠ 0
  | .str s => s ≠ ""
  | .arr l => !l.isEmpty
  | .obj kvs => !kvs.isEmpty

/-- Dictionary lookup, `item.get(k)`: `none` models Python `None` for a
missing key. -/
def objGet (kvs : List (String × Json)) (k : String) : Option Json :=
  (kvs.find? (fun p => p.1 == k)).map Prod.snd

/-- Key-membership test, `k in item` for a dict. -/
def hasKey (kvs : List (String × Json)) (k : String) : Bool :=
  (objGet kvs k).isSome

/-- Python `a or b` where `a` came from `dict.get` (so it may be the
missing-key `None`): keeps `a` when truthy, otherwise falls through to
`b`.  Mirrors the or-chains used throughout `parse_log_item`. -/
def pyOr (a : Option Json) (b : Json) : Json :=
  match a with
  | some v => if jtruthy v then v else b
  | none => b

/-- Approximate decimal rendering of a Python float (`repr`).  Exact for
integral values; non-integral values are rendered with at most six
fractional digits.  No theorem below depends on this rendering. -/
def pyFloatStr (q : Rat) : List Char :=
  if q.den = 1 then intStr q.num ++ ['.', '0']
  else
    let neg := q < 0
    let aq := |q|
    let ip := (⌊aq⌋).toNat
    let fr := aq - ⌊aq⌋
    let micro := (⌊fr * 1000000⌋).toNat
    (if neg then ['-'] else []) ++ natStr ip ++
      '.' :: trimTrailingZeros (padZeros 6 micro)

/-- Escaped body of a Python string repr quoted with `q`. -/
def reprStrBody (q : Char) : List Char → List Char
  | [] => []
  | c :: rest =>
    (if c = bslash then [bslash, bslash]
     else if c = q then [bslash, q]
     else if c = '\n' then [bslash, 'n']
     else if c = '\r' then [bslash, 'r']
     else if c = '\t' then [bslash, 't']
     else if c.toNat < 32 || c.toNat = 127 then
       bslash :: 'x' :: padZeros 2 c.toNat
     else [c]) ++ reprStrBody q rest

mutual

/-- Python `repr` of a JSON-shaped value, as used by `str` on lists and
dicts.  String atoms are quoted with a single quote unless they contain
one and no double quote, mirroring CPython; control characters are
rendered as `\xHH`. -/
def pyRepr : Json → List Char
  | .null => "None".data
  | .bool b => if b then "True".data else "False".data
  | .int n => intStr n
  | .float q => pyFloatStr q
  | .str s =>
    let q := if s.data.contains squote && !s.data.contains '"' then '"' else squote
    q :: reprStrBody q s.data ++ [q]
  | .arr l => '[' :: pyReprList l ++ [']']
  | .obj kvs => obrace :: pyReprObj kvs ++ [cbrace]

/-- Comma-joined reprs of list elements. -/
def pyReprList : List Json → List Char
  | [] => []
  | [j] => pyRepr j
  | j :: rest => pyRepr j ++ ',' :: ' ' :: pyReprList rest

/-- Comma-joined `key: value` reprs of dict entries. -/
def pyReprObj : List (String × Json) → List Char
  | [] => []
  | [(k, v)] => pyRepr (.str k) ++ ':' :: ' ' :: pyRepr v
  | (k, v) :: rest =>
    pyRepr (.str k) ++ ':' :: ' ' :: pyRepr v ++ ',' :: ' ' :: pyReprObj rest

end

/-- Python `str(x)` on a JSON-shaped value: strings unchanged, scalars
rendered, containers via `repr`. -/
def pyStr : Json → String
  | .str s => s
  | .int n => String.mk (intStr n)
  | .float q => String.mk (pyFloatStr q)
  | .bool b => if b then "True" else "False"
  | .null => "None"
  | .arr l => String.mk (pyRepr (.arr l))
  | .obj kvs => String.mk (pyRepr (.obj kvs))

/-- Lowercase hexadecimal digits of a natural number. -/
def natHexAux : Nat → Nat → List Char → List Char
  | 0, _, acc => acc
  | fuel + 1, n, acc =>
    let d := n % 16
    let c := if d < 10 then Char.ofNat (48 + d) else Char.ofNat (87 + d)
    if n < 16 then c :: acc else natHexAux fuel (n / 16) (c :: acc)

/-- Four-hex-digit escape `\uXXXX` used by `json.dumps` with
`ensure_ascii=True`. -/
def uEscape (n : Nat) : List Char :=
  let s := natHexAux (n + 1) n []
  bslash :: 'u' :: (List.replicate (4 - s.length) '0' ++ s)

/-- Escape of one character inside a JSON string literal, as produced by
`json.dumps` with its default `ensure_ascii=True`: printable ASCII other
than quote and backslash is kept, everything else is escaped (astral
code points as surrogate pairs). -/
def jsonEscapeChar (c : Char) : List Char :=
  if c = '"' then [bslash, '"']
  else if c = bslash then [bslash, bslash]
  else if c = '\n' then [bslash, 'n']
  else if c = '\r' then [bslash, 'r']
  else if c = '\t' then [bslash, 't']
  else if c.toNat = 8 then [bslash, 'b']
  else if c.toNat = 12 then [bslash, 'f']
  else if c.toNat < 32 || 126 < c.toNat then
    if c.toNat < 65536 then uEscape c.toNat
    else
      let m := c.toNat - 65536
      uEscape (55296 + m / 1024) ++ uEscape (56320 + m % 1024)
  else [c]

/-- Escaped body of a JSON string literal. -/
def jsonEscape (l : List Char) : List Char := (l.map jsonEscapeChar).flatten

mutual

/-- Model of `json.dumps` with CPython defaults (`ensure_ascii=True`,
separators `", "` and `": "`), used by `parse_log_item` for its final
IPv4-regex fallback.  Float rendering shares the approximate
`pyFloatStr`; no theorem depends on it. -/
def jsonDumps : Json → List Char
  | .null => "null".data
  | .bool b => if b then "true".data else "false".data
  | .int n => intStr n
  | .float q => pyFloatStr q
  | .str s => '"' :: jsonEscape s.data ++ ['"']
  | .arr l => '[' :: jsonDumpsList l ++ [']']
  | .obj kvs => obrace :: jsonDumpsObj kvs ++ [cbrace]

/-- Comma-joined dumps of array elements. -/
def jsonDumpsList : List Json → List Char
  | [] => []
  | [j] => jsonDumps j
  | j :: rest => jsonDumps j ++ ',' :: ' ' :: jsonDumpsList rest

/-- Comma-joined `"key": value` dumps of object entries. -/
def jsonDumpsObj : List (String × Json) → List Char
  | [] => []
  | [(k, v)] => '"' :: jsonEscape k.data ++ '"' :: ':' :: ' ' :: jsonDumps v
  | (k, v) :: rest =>
    '"' :: jsonEscape k.data ++ '"' :: ':' :: ' ' :: jsonDumps v ++
      ',' :: ' ' :: jsonDumpsObj rest

end

/-- Octet step of the IPv4 regex `\d{1,3}`: consumes the maximal digit
run when its length is between 1 and 3, failing otherwise (a longer run
cannot be rescued by backtracking because the following `\.` cannot
match a digit). -/
def ipOctet (l : List Char) : Option (List Char × List Char) :=
  let run := l.takeWhile isDigitChar
  if run.isEmpty || 3 < run.length then none
  else some (run, l.drop run.length)

/-- Literal-dot step of the IPv4 regex. -/
def ipDot : List Char → Option (List Char)
  | '.' :: rest => some rest
  | _ => none

/-- Attempt of the regex `\b\d{1,3}(?:\.\d{1,3}){3}\b` at the head of the
input (the leading boundary is checked by the caller), returning the
matched text. -/
def matchIPv4At (l : List Char) : Option (List Char) := do
  let (o1, r1) ← ipOctet l
  let r1 ← ipDot r1
  let (o2, r2) ← ipOctet r1
  let r2 ← ipDot r2
  let (o3, r3) ← ipOctet r2
  let r3 ← ipDot r3
  let (o4, r4) ← ipOctet r3
  match r4 with
  | c :: _ => if isWordChar c then none else some (o1 ++ '.' :: o2 ++ '.' :: o3 ++ '.' :: o4)
  | [] => some (o1 ++ '.' :: o2 ++ '.' :: o3 ++ '.' :: o4)

/-- Scan of `re.search` for the IPv4 pattern: leftmost match, tracking
the previous character for the leading word boundary. -/
def firstIPv4Go : Option Char → List Char → Option (List Char)
  | _, [] => none
  | prev, c :: rest =>
    let boundary := match prev with
      | none => true
      | some p => !isWordChar p
    if boundary && isDigitChar c then
      match matchIPv4At (c :: rest) with
      | some m => some m
      | none => firstIPv4Go (some c) rest
    else firstIPv4Go (some c) rest

/-- First IPv4-shaped substring of a string
(`re.search(r"\b\d{1,3}(?:\.\d{1,3}){3}\b", ...)` in `parse_log_item`). -/
def firstIPv4 (l : List Char) : Option (List Char) := firstIPv4Go none l

/-- Smallest epoch-second value accepted by `datetime.utcfromtimestamp`
(0001-01-01T00:00:00). -/
def epochMin : Int := -62135596800

/-- Largest epoch-second value accepted by `datetime.utcfromtimestamp`
(9999-12-31T23:59:59). -/
def epochMax : Int := 253402300799

/-- ISO-8601 rendering of an in-range epoch-second value, the composition
`datetime.utcfromtimestamp(n).isoformat()` for integral seconds (zero
microseconds are omitted by `isoformat`).  Uses the standard
civil-from-days calendar algorithm. -/
def isoOfEpoch (n : Int) : List Char :=
  let days : Int := n.fdiv 86400
  let secs : Nat := (n.fmod 86400).toNat
  let z : Int := days + 719468
  let era : Int := z.fdiv 146097
  let doe : Nat := (z.fmod 146097).toNat
  let yoe : Nat := (doe - doe / 1460 + doe / 36524 - doe / 146096) / 365
  let y0 : Int := (yoe : Int) + era * 400
  let doy : Nat := doe - (365 * yoe + yoe / 4 - yoe / 100)
  let mp : Nat := (5 * doy + 2) / 153
  let d : Nat := doy - (153 * mp + 2) / 5 + 1
  let m : Nat := if mp < 10 then mp + 3 else mp - 9
  let y : Int := if m ≤ 2 then y0 + 1 else y0
  padZeros 4 y.toNat ++ '-' :: padZeros 2 m ++ '-' :: padZeros 2 d ++
    'T' :: padZeros 2 (secs / 3600) ++ ':' :: padZeros 2 (secs % 3600 / 60) ++
    ':' :: padZeros 2 (secs % 60)

/-- Round-half-even on rationals (Python `round` on the microsecond
fraction). -/
def roundHalfEven (x : Rat) : Int :=
  let f := ⌊x⌋
  let r := x - (f : Rat)
  if r < 1 / 2 then f
  else if 1 / 2 < r then f + 1
  else if f % 2 = 0 then f else f + 1

/-- Python truncation toward zero (`math.modf` integral part). -/
def ratTrunc (q : Rat) : Int := if q < 0 then -(⌊-q⌋) else ⌊q⌋

/-- Conversion of a float timestamp: CPython splits off the fraction with
`modf`, rounds it to microseconds half-even, carries, then formats; an
out-of-range value raises and `parse_log_item` falls back to `str`. -/
def floatTimeToStr (q : Rat) : String :=
  let tr := ratTrunc q
  let us0 := roundHalfEven ((q - (tr : Rat)) * 1000000)
  let t := if 1000000 ≤ us0 then tr + 1 else if us0 < 0 then tr - 1 else tr
  let us := if 1000000 ≤ us0 then us0 - 1000000 else if us0 < 0 then us0 + 1000000 else us0
  if epochMin ≤ t ∧ t ≤ epochMax then
    String.mk (isoOfEpoch t ++ (if us = 0 then [] else '.' :: padZeros 6 us.toNat))
  else String.mk (pyFloatStr q)

/-- Conversion-plus-stringification of the resolved time value in
`parse_log_item`: a numeric value (Python counts `bool` as `int`) is
interpreted as epoch seconds and rendered ISO-8601, falling back to
`str(time)` when `utcfromtimestamp` raises; any other value is passed to
the final `str(time)` unchanged. -/
def timeToStr : Json → String
  | .int n =>
    if epochMin ≤ n ∧ n ≤ epochMax then String.mk (isoOfEpoch n)
    else String.mk (intStr n)
  | .float q => floatTimeToStr q
  | .bool b => String.mk (isoOfEpoch (if b then 1 else 0))
  | v => pyStr v

/-- Canonical record produced by the log normalizer: five string
fields. -/
structure NormalizedRecord where
  time : String
  ip : String
  method : String
  url : String
  body : String
deriving DecidableEq, Repr

/-- Decidable equality for `Except` results, so that concrete runs of the
fallible normalizer can be checked by `decide`. -/
instance exceptDecEq {ε α : Type} [DecidableEq ε] [DecidableEq α] :
    DecidableEq (Except ε α) := fun a b =>
  match a, b with
  | .error e1, .error e2 =>
    if h : e1 = e2 then isTrue (by rw [h]) else isFalse (by intro hh; cases hh; exact h rfl)
  | .error _, .ok _ => isFalse (by intro hh; cases hh)
  | .ok _, .error _ => isFalse (by intro hh; cases hh)
  | .ok x, .ok y =>
    if h : x = y then isTrue (by rw [h]) else isFalse (by intro hh; cases hh; exact h rfl)

/-- Embedding of `parse_log_item` (src/alert_parser.py).  The current
UTC instant `datetime.utcnow().isoformat()` is passed explicitly as
`now`.  A Python `AttributeError` (calling `.get` on a non-dict) is
modelled as `Except.error`; it occurs when the item itself is not an
object, or when the `headers` fallback consults a non-dict `headers`
value. -/
def parse_log_item (item : Json) (now : String) : Except String NormalizedRecord :=
  match item with
  | .obj kvs =>
    let timeVal := pyOr (objGet kvs "time")
      (pyOr (objGet kvs "timestamp") (pyOr (objGet kvs "ts") (.str now)))
    let timeStr := timeToStr timeVal
    let ip0 := pyOr (objGet kvs "ip") (pyOr (objGet kvs "remote_ip")
      (pyOr (objGet kvs "client_ip") (pyOr (objGet kvs "source_ip")
      (pyOr (objGet kvs "host") (pyOr (objGet kvs "ip_address")
      (pyOr (objGet kvs "src_ip") (.str "")))))))
    let ipStep : Except String Json :=
      if !jtruthy ip0 && hasKey kvs "headers" then
        match objGet kvs "headers" with
        | some (.obj hdr) =>
          .ok (pyOr (objGet hdr "x-forwarded-for")
            (pyOr (objGet hdr "x-real-ip") (.str "")))
        | _ => .error "AttributeError: object has no attribute get"
      else .ok ip0
    match ipStep with
    | .error e => .error e
    | .ok ip1 =>
      let ip2 : Json :=
        if !jtruthy ip1 then
          match firstIPv4 (jsonDumps item) with
          | some m => .str (String.mk m)
          | none => .str "0.0.0.0"
        else ip1
      let method := pyOr (objGet kvs "method") (pyOr (objGet kvs "http_method") (.str "GET"))
      let url := pyOr (objGet kvs "url") (pyOr (objGet kvs "path") (.str ""))
      let body := pyOr (objGet kvs "body") (pyOr (objGet kvs "data") (.str ""))
      .ok { time := timeStr, ip := pyStr ip2, method := pyStr method,
            url := pyStr url, body := pyStr body }
  | _ => .error "AttributeError: object has no attribute get"

/-- Specification-side time resolution, written from the amended claim:
the ordered candidate list `time, timestamp, ts` is scanned left to
right and the first key bound to a truthy value wins; when none does,
the current instant is used; the winning value then goes through the
same numeric-to-ISO conversion and stringification as the code. -/
def resolveTimeSpec (kvs : List (String × Json)) (now : String) : String :=
  let firstTruthy := [objGet kvs "time", objGet kvs "timestamp", objGet kvs "ts"].findSome?
    (fun o => o.bind (fun v => if jtruthy v then some v else none))
  match firstTruthy with
  | some v => timeToStr v
  | none => now

/-- Hexadecimal digit value, both cases (used by percent-decoding). -/
def hexVal (c : Char) : Option Nat :=
  if isDigitChar c then some (c.toNat - 48)
  else if 97 ≤ c.toNat && c.toNat ≤ 102 then some (c.toNat - 87)
  else if 65 ≤ c.toNat && c.toNat ≤ 70 then some (c.toNat - 55)
  else none

/-- Plus-to-space stage of `urllib.parse.unquote_plus`. -/
def plusToSpace (l : List Char) : List Char :=
  l.map (fun c => if c = '+' then ' ' else c)

/-- Token stream of percent-decoding: literal characters and decoded
bytes from well-formed `%XX` groups. -/
inductive PctTok where
  | raw : Char → PctTok
  | byte : Nat → PctTok

/-- Tokenizer of `urllib.parse.unquote`: a `%` followed by two hex digits
yields a byte; a malformed `%` stays literal. -/
def pctTokenizeF : Nat → List Char → List PctTok
  | 0, _ => []
  | _ + 1, [] => []
  | fuel + 1, c :: rest =>
    if c = '%' then
      match rest with
      | h1 :: h2 :: rest2 =>
        match hexVal h1, hexVal h2 with
        | some a, some b => .byte (16 * a + b) :: pctTokenizeF fuel rest2
        | _, _ => .raw c :: pctTokenizeF fuel rest
      | _ => .raw c :: pctTokenizeF fuel rest
    else .raw c :: pctTokenizeF fuel rest

/-- Tokenizer entry point with adequate fuel. -/
def pctTokenize (l : List Char) : List PctTok := pctTokenizeF (l.length + 1) l

/-- Unicode replacement character, produced by `errors="replace"`. -/
def replChar : Char := Char.ofNat 65533

/-- Continuation-byte test for UTF-8. -/
def isContByte (b : Nat) : Bool := 128 ≤ b && b ≤ 191

/-- UTF-8 decoding of a byte run with replacement on error (the
`errors="replace"` policy of `unquote`; an invalid or truncated sequence
contributes one replacement character per offending lead byte).  The
fuel argument (one unit per consumed byte) keeps the recursion
structural. -/
def utf8DecodeF : Nat → List Nat → List Char
  | 0, _ => []
  | _ + 1, [] => []
  | fuel + 1, b :: rest =>
    if b < 128 then Char.ofNat b :: utf8DecodeF fuel rest
    else if 194 ≤ b && b ≤ 223 then
      match rest with
      | b2 :: r2 =>
        if isContByte b2 then Char.ofNat ((b - 192) * 64 + (b2 - 128)) :: utf8DecodeF fuel r2
        else replChar :: utf8DecodeF fuel rest
      | [] => [replChar]
    else if 224 ≤ b && b ≤ 239 then
      match rest with
      | b2 :: r2 =>
        let lo2 := if b = 224 then 160 else 128
        let hi2 := if b = 237 then 159 else 191
        if lo2 ≤ b2 && b2 ≤ hi2 then
          match r2 with
          | b3 :: r3 =>
            if isContByte b3 then
              Char.ofNat ((b - 224) * 4096 + (b2 - 128) * 64 + (b3 - 128)) :: utf8DecodeF fuel r3
            else replChar :: utf8DecodeF fuel rest
          | [] => [replChar]
        else replChar :: utf8DecodeF fuel rest
      | [] => [replChar]
    else if 240 ≤ b && b ≤ 244 then
      match rest with
      | b2 :: r2 =>
        let lo2 := if b = 240 then 144 else 128
        let hi2 := if b = 244 then 143 else 191
        if lo2 ≤ b2 && b2 ≤ hi2 then
          match r2 with
          | b3 :: r3 =>
            if isContByte b3 then
              match r3 with
              | b4 :: r4 =>
                if isContByte b4 then
                  Char.ofNat ((b - 240) * 262144 + (b2 - 128) * 4096 +
                    (b3 - 128) * 64 + (b4 - 128)) :: utf8DecodeF fuel r4
                else replChar :: utf8DecodeF fuel rest
              | [] => [replChar]
            else replChar :: utf8DecodeF fuel rest
          | [] => [replChar]
        else replChar :: utf8DecodeF fuel rest
      | [] => [replChar]
    else replChar :: utf8DecodeF fuel rest

/-- UTF-8 decoding entry point with adequate fuel. -/
def utf8Decode (bs : List Nat) : List Char := utf8DecodeF (bs.length + 1) bs

/-- Emitter of `unquote`: consecutive byte tokens form one UTF-8 run,
decoded together (CPython decodes each maximal `%XX` run as a unit). -/
def emitToks : List PctTok → List Nat → List Char
  | [], acc => utf8Decode acc.reverse
  | .raw c :: rest, acc => utf8Decode acc.reverse ++ c :: emitToks rest []
  | .byte b :: rest, acc => emitToks rest (b :: acc)

/-- Model of `urllib.parse.unquote` with UTF-8 `errors="replace"`. -/
def unquote (l : List Char) : List Char := emitToks (pctTokenize l) []

/-- Model of `urllib.parse.unquote_plus`: plus-to-space, then percent
decoding. -/
def unquote_plus (l : List Char) : List Char := unquote (plusToSpace l)

/-- Decode loop of `normalize_for_tfidf`: up to `n` rounds of
`unquote_plus`, stopping early when a round is the identity. -/
def decodeRounds : Nat → List Char → List Char
  | 0, s => s
  | n + 1, s =>
    let s2 := unquote_plus s
    if s2 = s then s else decodeRounds n s2

/-- Codepoint of a numeric character reference, following CPython
`html.unescape`: zero and out-of-range values become the replacement
character, surrogates are dropped, and 0x80–0x9F go through the
Windows-1252 remapping table. -/
def charrefChar (cp : Nat) : List Char :=
  if cp = 0 then [replChar]
  else if cp = 13 then ['\r']
  else if 55296 ≤ cp && cp ≤ 57343 then []
  else if 1114111 < cp then [replChar]
  else if 128 ≤ cp && cp ≤ 159 then
    let w : List Nat :=
      [8364, 129, 8218, 402, 8222, 8230, 8224, 8225, 710, 8240, 352, 8249,
       338, 141, 381, 143, 144, 8216, 8217, 8220, 8221, 8226, 8211, 8212,
       732, 8482, 353, 8250, 339, 157, 382, 376]
    [Char.ofNat (w.getD (cp - 128) 65533)]
  else [Char.ofNat cp]

/-- Core named entities recognized by the model of `html.unescape`
(semicolon forms).  This is a subset of the 2231-entry html5 table;
every theorem below applies `htmlUnescape` only to ampersand-free text,
where the function is the identity via the CPython fast path. -/
def namedEntities : List (String × Char) :=
  [("amp", '&'), ("lt", '<'), ("gt", '>'), ("quot", '"'),
   ("apos", squote), ("nbsp", Char.ofNat 160), ("percnt", '%'),
   ("plus", '+'), ("sol", '/'), ("num", Char.ofNat 35)]

/-- Scanner of `html.unescape` for text containing an ampersand. -/
def unescapeScan : Nat → List Char → List Char
  | 0, l => l
  | _ + 1, [] => []
  | fuel + 1, '&' :: '#' :: rest =>
    let hexMode := match rest with
      | 'x' :: _ => true
      | 'X' :: _ => true
      | _ => false
    let digs := if hexMode then (rest.drop 1).takeWhile (fun c => (hexVal c).isSome)
                else rest.takeWhile isDigitChar
    if digs.isEmpty then '&' :: unescapeScan fuel ('#' :: rest)
    else
      let afterDigs := (if hexMode then rest.drop 1 else rest).drop digs.length
      let afterSemi := match afterDigs with
        | ';' :: r => r
        | r => r
      let base := if hexMode then 16 else 10
      let cp := digs.foldl (fun acc c => acc * base + ((hexVal c).getD 0)) 0
      charrefChar cp ++ unescapeScan fuel afterSemi
  | fuel + 1, '&' :: rest =>
    match namedEntities.findSome? (fun p =>
        if (p.1.data ++ [';']).isPrefixOf rest then some (p.2, p.1.data.length + 1)
        else none) with
    | some (c, len) => c :: unescapeScan fuel (rest.drop len)
    | none => '&' :: unescapeScan fuel rest
  | fuel + 1, c :: rest => c :: unescapeScan fuel rest

/-- Model of `html.unescape`: CPython returns the input unchanged when it
contains no ampersand, otherwise substitutes character references. -/
def htmlUnescape (l : List Char) : List Char :=
  if l.contains '&' then unescapeScan (l.length + 1) l else l

/-- Whitespace-run collapsing, `re.sub(r"\s+", " ", s)`. -/
def collapseWsGo : List Char → Bool → List Char
  | [], _ => []
  | c :: r, inRun =>
    if isSpaceChar c then
      if inRun then collapseWsGo r true else ' ' :: collapseWsGo r true
    else c :: collapseWsGo r false

/-- Whitespace-run collapsing entry point. -/
def collapseWs (l : List Char) : List Char := collapseWsGo l false

/-- Python `str.strip()` on the ASCII whitespace model. -/
def pyStrip (l : List Char) : List Char :=
  ((l.dropWhile isSpaceChar).reverse.dropWhile isSpaceChar).reverse

/-- Replacement of carriage return, newline and tab by a space, the
explicit `str.replace` chain of `normalize_for_tfidf`. -/
def replRNT (c : Char) : Char :=
  if c = '\r' || c = '\n' || c = '\t' then ' ' else c

/-- Embedding of `normalize_for_tfidf` (src/utils_clean.py): up to three
percent-decode rounds with an early fixed point, HTML-entity decoding,
lower-casing, explicit `\r\n\t` replacement, whitespace collapsing and
trimming.  The `None` guard of the source is outside the model (callers
always pass strings), and `unquote_plus` never raises here, matching the
unused `except` branch. -/
def normalize_for_tfidf (text : List Char) : List Char :=
  let s := decodeRounds 3 text
  let s := htmlUnescape s
  let s := s.map lowerChar
  let s := s.map replRNT
  let s := collapseWs s
  pyStrip s

/-- Generic left-to-right non-overlapping match counter, the semantics
of `len(re.findall(...))` and of `str.count`: at each position the
matcher sees the previous character (for word boundaries) and the
remaining text, and returns the matched length; after a match the scan
resumes past it.  Fuel is one unit per step. -/
def scanCountGo : Nat → (Option Char → List Char → Option Nat) → Option Char → List Char → Nat
  | 0, _, _, _ => 0
  | _ + 1, _, _, [] => 0
  | fuel + 1, f, prev, c :: rest =>
    match f prev (c :: rest) with
    | some len =>
      if len = 0 then scanCountGo fuel f (some c) rest
      else 1 + scanCountGo fuel f ((c :: rest).take len).getLast? ((c :: rest).drop len)
    | none => scanCountGo fuel f (some c) rest

/-- Match counter entry point with adequate fuel. -/
def scanCount (f : Option Char → List Char → Option Nat) (l : List Char) : Nat :=
  scanCountGo (l.length + 1) f none l

/-- Python `s.count(sub)` for a non-empty literal pattern. -/
def countSubstr (sub : List Char) (l : List Char) : Nat :=
  scanCount (fun _ t => if sub.isPrefixOf t then some sub.length else none) l

/-- Sum of `s.count(p)` over a pattern list, the `sum(s.count(p) for p in
pats)` idiom of the feature counters. -/
def sumCounts (pats : List (List Char)) (l : List Char) : Nat :=
  (pats.map (fun p => countSubstr p l)).sum

/-- Python `sub in s` membership. -/
def containsSub (sub : List Char) (l : List Char) : Bool :=
  countSubstr sub l != 0

/-- Embedding of `calc_entropy` (src/utils_clean.py): Shannon entropy of
the character frequency distribution, zero on the empty string.  The
float arithmetic of the source is modelled over the reals; the sum runs
once over the distinct characters, like iterating a `Counter`. -/
noncomputable def calc_entropy (s : List Char) : ℝ :=
  if s.isEmpty then 0
  else -((s.dedup.map (fun c =>
      let p : ℝ := (s.count c : ℝ) / (s.length : ℝ)
      p * Real.logb 2 p)).sum)

/-- Embedding of `count_special_chars`: characters neither alphanumeric
nor whitespace. -/
def count_special_chars (l : List Char) : Nat :=
  if l.isEmpty then 0
  else (l.filter (fun c => !isAlnumChar c && !isSpaceChar c)).length

/-- Tail-state loop of `longest_special_run`. -/
def longestSpecialRunGo : List Char → Nat → Nat → Nat
  | [], _, best => best
  | c :: r, cur, best =>
    if !isAlnumChar c && !isSpaceChar c then
      longestSpecialRunGo r (cur + 1) (max best (cur + 1))
    else longestSpecialRunGo r 0 best

/-- Embedding of `longest_special_run`: longest contiguous run of
special characters. -/
def longest_special_run (l : List Char) : Nat :=
  if l.isEmpty then 0 else longestSpecialRunGo l 0 0

/-- Keyword list `_CMD_KEYWORDS` of src/utils_clean.py. -/
def cmdKeywords : List String :=
  ["ls", "cat", "wget", "curl", "chmod", "chown",
   "rm ", "rm -rf", "mv ", "cp ", "echo ", "id", "whoami",
   "uname", "ping", "nc ", "netcat", "bash", "sh ", "/bin/sh",
   "/bin/bash", "nohup", "python", "perl", "php ", "nc -e"]

/-- Embedding of `find_cmd_keyword_count`. -/
def find_cmd_keyword_count (l : List Char) : Nat :=
  if l.isEmpty then 0 else sumCounts (cmdKeywords.map String.data) (l.map lowerChar)

/-- Embedding of `count_cmd_special`: shell metacharacter counts. -/
def count_cmd_special (l : List Char) : Nat :=
  if l.isEmpty then 0
  else sumCounts ([";", "&&", "||", "|", "`", "$(", ")", ">>", "<", "&"].map String.data)
    (l.map lowerChar)

/-- Embedding of `count_shell_patterns`. -/
def count_shell_patterns (l : List Char) : Nat :=
  if l.isEmpty then 0
  else sumCounts (["sh -c", "/bin/sh", "/bin/bash",
    "$(whoami", "$(id", "$(uname", "$(curl", "$(wget"].map String.data) (l.map lowerChar)

/-- Embedding of `count_path_traversal`. -/
def count_path_traversal (l : List Char) : Nat :=
  if l.isEmpty then 0
  else sumCounts ["../".data, ['.', '.', bslash], "%2e%2e%2f".data,
    "%2e%2e".data ++ [bslash], "..%2f".data, "%252e%252e%252f".data] (l.map lowerChar)

/-- Embedding of `count_sensitive_files`. -/
def count_sensitive_files (l : List Char) : Nat :=
  if l.isEmpty then 0
  else sumCounts (["/etc/passwd", "/etc/shadow", "/etc/hosts",
    "id_rsa", "id_dsa", "authorized_keys",
    "web.config", "config.php", "settings.py",
    ".htaccess", "wp-config.php"].map String.data) (l.map lowerChar)

/-- Keyword list `_SQL_KEYWORDS` of src/utils_clean.py. -/
def sqlKeywords : List String :=
  ["select", "union", "insert", "update", "delete",
   "drop", "truncate", "alter", "create",
   "from", "where", "group by", "order by",
   "having", "limit", "offset",
   "into", "values", "join", "inner join", "outer join",
   "sleep", "benchmark"]

/-- Lowercase hexadecimal digit test (matching after lower-casing models
the IGNORECASE flag of the SQL regexes). -/
def isHexDigitLower (c : Char) : Bool :=
  isDigitChar c || (97 ≤ c.toNat && c.toNat ≤ 102)

/-- Matcher for `_SQL_HEX_RE`, the regex `0x[0-9a-f]{4,}`: a greedy hex
run of length at least four. -/
def sqlHexMatch (_ : Option Char) (l : List Char) : Option Nat :=
  match l with
  | '0' :: 'x' :: rest =>
    let run := rest.takeWhile isHexDigitLower
    if 4 ≤ run.length then some (2 + run.length) else none
  | _ => none

/-- Matcher for `_SQL_OBFUSCATE_RE`, the regex `/\*![0-9]*\s*select`. -/
def sqlObfMatch (_ : Option Char) (l : List Char) : Option Nat :=
  match l with
  | '/' :: '*' :: '!' :: rest =>
    let ds := rest.takeWhile isDigitChar
    let r2 := rest.drop ds.length
    let sp := r2.takeWhile isSpaceChar
    if "select".data.isPrefixOf (r2.drop sp.length) then
      some (3 + ds.length + sp.length + 6)
    else none
  | _ => none

/-- Length of the lazy comment match `/\*.*?\*/` starting at the text
after `/*`: distance to the first `*/`, failing across a newline
(regex `.` does not match one). -/
def commentEndLen : List Char → Nat → Option Nat
  | [], _ => none
  | '*' :: '/' :: _, acc => some (acc + 2)
  | '\n' :: _, _ => none
  | _ :: rest, acc => commentEndLen rest (acc + 1)

/-- Matcher for the inline-comment regex `/\*.*?\*/`. -/
def commentMatch (_ : Option Char) (l : List Char) : Option Nat :=
  match l with
  | '/' :: '*' :: rest => commentEndLen rest 2
  | _ => none

/-- Separator loop of `_SQL_UNION_OBFUS_RE`: at least one comment block
or whitespace run after `union`, then `select`.  The units cannot start
with the letter `s`, so consuming them greedily is exact. -/
def unionSepGo : Nat → List Char → Nat → Bool → Option Nat
  | 0, _, _, _ => none
  | fuel + 1, rest, acc, hasUnit =>
    match commentMatch none rest with
    | some cl => unionSepGo fuel (rest.drop cl) (acc + cl) true
    | none =>
      let sp := rest.takeWhile isSpaceChar
      if !sp.isEmpty then unionSepGo fuel (rest.drop sp.length) (acc + sp.length) true
      else if hasUnit && "select".data.isPrefixOf rest then some (acc + 6)
      else none

/-- Matcher for `_SQL_UNION_OBFUS_RE`, the regex
`union(?:/\*.*?\*/|\s+)+select`. -/
def unionObfMatch (_ : Option Char) (l : List Char) : Option Nat :=
  if "union".data.isPrefixOf l then
    match unionSepGo (l.length + 1) (l.drop 5) 0 false with
    | some n => some (5 + n)
    | none => none
  else none

/-- Character class `[/\*\)\(+\s]` of `_SQL_OR_TRUE_RE` (the class also
covers the leading `\s*`, which it subsumes). -/
def isOrTrueClass (c : Char) : Bool :=
  c = '/' || c = '*' || c = ')' || c = '(' || c = '+' || isSpaceChar c

/-- Matcher for `_SQL_OR_TRUE_RE`, the regex
`\bor\s*[/\*\)\(+\s]*1\s*=\s*1`. -/
def orTrueMatch (prev : Option Char) (l : List Char) : Option Nat :=
  let boundary := match prev with
    | none => true
    | some p => !isWordChar p
  match l with
  | 'o' :: 'r' :: rest =>
    if !boundary then none
    else
      let cl := rest.takeWhile isOrTrueClass
      match rest.drop cl.length with
      | '1' :: r3 =>
        let s1 := r3.takeWhile isSpaceChar
        match r3.drop s1.length with
        | '=' :: r4 =>
          let s2 := r4.takeWhile isSpaceChar
          match r4.drop s2.length with
          | '1' :: _ => some (2 + cl.length + 1 + s1.length + 1 + s2.length + 1)
          | _ => none
        | _ => none
      | _ => none
  | _ => none

/-- Function-name alternatives of `_SQL_FUNC_RE`, in source order. -/
def sqlFuncNames : List String :=
  ["ascii", "char", "count", "sum", "avg", "min", "max", "substr", "substring",
   "md5", "sha1", "concat", "database", "schema", "version", "sleep", "benchmark",
   "if", "pg_sleep", "pg_read_file", "json_extract", "extractvalue", "updatexml"]

/-- Matcher for `_SQL_FUNC_RE`, the regex `\b(?:names)\s*\(`: ordered
alternation with per-alternative continuation, which reproduces regex
backtracking across alternatives. -/
def sqlFuncMatch (prev : Option Char) (l : List Char) : Option Nat :=
  let boundary := match prev with
    | none => true
    | some p => !isWordChar p
  if !boundary then none
  else sqlFuncNames.findSome? (fun nm =>
    if nm.data.isPrefixOf l then
      let r := l.drop nm.data.length
      let sp := r.takeWhile isSpaceChar
      match r.drop sp.length with
      | '(' :: _ => some (nm.data.length + sp.length + 1)
      | _ => none
    else none)

/-- Character class `[0-9a-z_'"]` of `_SQL_LOGIC_RE`. -/
def isSqlLogicClass (c : Char) : Bool :=
  isDigitChar c || isLowerChar c || c = '_' || c = squote || c = '"'

/-- Matcher for `_SQL_LOGIC_RE`: one of the operators or, and, xor
between word boundaries, then whitespace, then an equation whose two
sides are runs over the class of digits, lowercase letters, underscore
and the two quote characters. -/
def sqlLogicMatch (prev : Option Char) (l : List Char) : Option Nat :=
  let boundary := match prev with
    | none => true
    | some p => !isWordChar p
  if !boundary then none
  else ["or", "and", "xor"].findSome? (fun op =>
    if op.data.isPrefixOf l then
      let r := l.drop op.data.length
      let tailBoundary := match r with
        | c :: _ => !isWordChar c
        | [] => true
      if !tailBoundary then none
      else
        let sp := r.takeWhile isSpaceChar
        if sp.isEmpty then none
        else
          let r2 := r.drop sp.length
          let c1 := r2.takeWhile isSqlLogicClass
          if c1.isEmpty then none
          else
            let r3 := r2.drop c1.length
            let s2 := r3.takeWhile isSpaceChar
            match r3.drop s2.length with
            | '=' :: r4 =>
              let s3 := r4.takeWhile isSpaceChar
              let c2 := (r4.drop s3.length).takeWhile isSqlLogicClass
              if c2.isEmpty then none
              else some (op.data.length + sp.length + c1.length + s2.length +
                1 + s3.length + c2.length)
            | _ => none
    else none)

/-- Matcher for `_SQL_UNICODE_QUOTE_RE`, the regex `\\u0*0*27`: after
`\u`, only the full zero run followed by `27` can match, because `2`
is not a zero. -/
def unicodeQuoteMatch (_ : Option Char) (l : List Char) : Option Nat :=
  match l with
  | c1 :: 'u' :: rest =>
    if c1 = bslash then
      let zs := rest.takeWhile (· = '0')
      if "27".data.isPrefixOf (rest.drop zs.length) then some (2 + zs.length + 2)
      else none
    else none
  | _ => none

/-- Matcher for the double-percent-encoding regex
`%[0-9a-f]{2}%[0-9a-f]{2}`. -/
def pct2Match (_ : Option Char) (l : List Char) : Option Nat :=
  match l with
  | '%' :: a :: b :: '%' :: c :: d :: _ =>
    if isHexDigitLower a && isHexDigitLower b && isHexDigitLower c && isHexDigitLower d then
      some 6
    else none
  | _ => none

/-- Embedding of `count_sql_keywords`: keyword substring counts plus hex
literals, comment-obfuscated `select`, and comment-split
`union ... select` counted double. -/
def count_sql_keywords (l : List Char) : Nat :=
  if l.isEmpty then 0
  else
    let s := l.map lowerChar
    sumCounts (sqlKeywords.map String.data) s +
      scanCount sqlHexMatch s + scanCount sqlObfMatch s +
      scanCount unionObfMatch s * 2

/-- Embedding of `count_sql_comments`: comment-marker substring counts
plus closed inline comments. -/
def count_sql_comments (l : List Char) : Nat :=
  if l.isEmpty then 0
  else
    let s := l.map lowerChar
    sumCounts (["--", "/*", "*/", "#", "--+", "#+"].map String.data) s +
      scanCount commentMatch s

/-- Embedding of `count_sql_boolean_ops`. -/
def count_sql_boolean_ops (l : List Char) : Nat :=
  if l.isEmpty then 0 else scanCount sqlLogicMatch (l.map lowerChar)

/-- Embedding of `count_sql_funcs` (the IGNORECASE flag is modelled by
matching on the lower-cased text). -/
def count_sql_funcs (l : List Char) : Nat :=
  if l.isEmpty then 0 else scanCount sqlFuncMatch (l.map lowerChar)

/-- URL-sign list `_SQL_URL_SIGNS` of src/utils_clean.py. -/
def sqlUrlSigns : List String :=
  ["%27", "%22", "%23", "%20or%20", "%20and%20",
   "%2527", "%2520", "%255c", "%253d"]

/-- Embedding of `count_sql_logic_patterns`: literal tautologies,
percent-encoded SQL signs, a double-percent-encoding bonus, doubled
obfuscated-union and or-true counts, and the unicode-quote bonus gated
on co-occurring SQL keywords. -/
def count_sql_logic_patterns (l : List Char) : Nat :=
  if l.isEmpty then 0
  else
    let s := l.map lowerChar
    let common : List (List Char) :=
      ["1=1".data, "1 = 1".data, "1=2".data, "1 = 2".data,
       "true".data, "false".data, "is null".data, "is not null".data,
       "like ".data ++ [squote, '%'], "like \"%".data]
    sumCounts common s +
      sumCounts (sqlUrlSigns.map String.data) s +
      (if scanCount pct2Match s ≠ 0 then 2 else 0) +
      scanCount unionObfMatch s * 2 +
      scanCount orTrueMatch s * 2 +
      (if scanCount unicodeQuoteMatch s ≠ 0 &&
          (containsSub "select".data s || containsSub "union".data s ||
           containsSub " or ".data s || containsSub " and ".data s) then 2 else 0)

/-- Tag alternatives of `_XSS_TAG_RE`, in source order. -/
def xssTagNames : List String :=
  ["script", "img", "svg", "math", "iframe", "object", "embed", "video",
   "audio", "details", "marquee", "body", "input", "textarea", "button"]

/-- Tag alternatives of `_RARE_TAG_RE`, in source order. -/
def rareTagNames : List String :=
  ["svg", "math", "details", "marquee", "embed", "object", "video", "audio"]

/-- Matcher for the tag regexes `<\s*(alt1|alt2|...)\b`: ordered
alternation, each alternative followed by a word boundary. -/
def tagAltMatch (tags : List String) (_ : Option Char) (l : List Char) : Option Nat :=
  match l with
  | '<' :: rest =>
    let sp := rest.takeWhile isSpaceChar
    let r2 := rest.drop sp.length
    match tags.findSome? (fun t =>
        if t.data.isPrefixOf r2 then
          match r2.drop t.data.length with
          | c :: _ => if isWordChar c then none else some t.data.length
          | [] => some t.data.length
        else none) with
    | some tl => some (1 + sp.length + tl)
    | none => none
  | _ => none

/-- Embedding of `count_xss_tags`. -/
def count_xss_tags (l : List Char) : Nat :=
  if l.isEmpty then 0 else scanCount (tagAltMatch xssTagNames) (l.map lowerChar)

/-- Matcher for `_XSS_EVENT_RE`, the regex `\bon\w+\s*=`. -/
def xssEventMatch (prev : Option Char) (l : List Char) : Option Nat :=
  let boundary := match prev with
    | none => true
    | some p => !isWordChar p
  match l with
  | 'o' :: 'n' :: rest =>
    if !boundary then none
    else
      let w := rest.takeWhile isWordChar
      if w.isEmpty then none
      else
        let r2 := rest.drop w.length
        let sp := r2.takeWhile isSpaceChar
        match r2.drop sp.length with
        | '=' :: _ => some (2 + w.length + sp.length + 1)
        | _ => none
  | _ => none

/-- Embedding of `count_xss_events`. -/
def count_xss_events (l : List Char) : Nat :=
  if l.isEmpty then 0 else scanCount xssEventMatch (l.map lowerChar)

/-- Embedding of `count_js_protocols`. -/
def count_js_protocols (l : List Char) : Nat :=
  if l.isEmpty then 0
  else sumCounts (["javascript:", "vbscript:", "data:text/html",
    "data:text/javascript"].map String.data) (l.map lowerChar)

/-- Embedding of `count_xss_js_uri`. -/
def count_xss_js_uri (l : List Char) : Nat :=
  if l.isEmpty then 0
  else sumCounts (["href=javascript:", "src=javascript:",
    "xlink:href=javascript:"].map String.data) (l.map lowerChar)

/-- Embedding of `count_rare_html_tags`. -/
def count_rare_html_tags (l : List Char) : Nat :=
  if l.isEmpty then 0 else scanCount (tagAltMatch rareTagNames) (l.map lowerChar)

/-- Matcher for `_UNICODE_ESC_RE`, the case-sensitive regex
`\\u[0-9a-f]{4}`. -/
def unicodeEscMatch (_ : Option Char) (l : List Char) : Option Nat :=
  match l with
  | c1 :: 'u' :: h1 :: h2 :: h3 :: h4 :: _ =>
    if c1 = bslash && isHexDigitLower h1 && isHexDigitLower h2 &&
        isHexDigitLower h3 && isHexDigitLower h4 then some 6
    else none
  | _ => none

/-- Embedding of `count_unicode_escapes` (no IGNORECASE flag in the
source, so the text is scanned as is). -/
def count_unicode_escapes (l : List Char) : Nat :=
  if l.isEmpty then 0 else scanCount unicodeEscMatch l

/-- Base64-alphabet test for `_BASE64_RE`. -/
def isB64Char (c : Char) : Bool := isAlnumChar c || c = '+' || c = '/'

/-- Matcher for `_BASE64_RE`, the regex `[A-Za-z0-9+/]{20,}={0,2}`. -/
def b64Match (_ : Option Char) (l : List Char) : Option Nat :=
  let run := l.takeWhile isB64Char
  if run.length < 20 then none
  else
    let eqs := min 2 ((l.drop run.length).takeWhile (· = '=')).length
    some (run.length + eqs)

/-- Embedding of `count_base64_chunks`. -/
def count_base64_chunks (l : List Char) : Nat :=
  if l.isEmpty then 0 else scanCount b64Match l

/-- Feature vector built by `preprocess` (src/infer_clean.py), with one
field per entry of the meta dictionary.  The two float-valued signals
(`entropy`, `special_ratio`) live in the type parameter `α`: the honest
embedding of the pipeline instantiates `α := ℝ`, while universally
quantified severity theorems hold for any linearly ordered `α` and can
be evaluated at `α := ℚ`. -/
structure Meta (α : Type) where
  url_length : Nat
  entropy : α
  num_special : Nat
  special_ratio : α
  longest_special_seq : Nat
  cmd_keyword_count : Nat
  cmd_special_count : Nat
  path_traversal_count : Nat
  sensitive_file_count : Nat
  shell_pattern_count : Nat
  sql_comment_count : Nat
  sql_keyword_count : Nat
  sql_boolean_ops : Nat
  sql_func_count : Nat
  sql_logic_count : Nat
  xss_tag_count : Nat
  xss_event_count : Nat
  js_proto_count : Nat
  xss_js_uri_count : Nat
  xss_rare_tag_count : Nat
  unicode_escape_count : Nat
  base64_chunk_count : Nat

/-- Embedding of `preprocess` (src/infer_clean.py): decode the
concatenation of url and body, then compute every signal of the meta
dictionary from the decoded text. -/
noncomputable def preprocess (url body : String) : List Char × Meta ℝ :=
  let text := normalize_for_tfidf (url.data ++ ' ' :: body.data)
  (text,
   { url_length := text.length
     entropy := calc_entropy text
     num_special := count_special_chars text
     special_ratio := (count_special_chars text : ℝ) / ((text.length : ℝ) + 1)
     longest_special_seq := longest_special_run text
     cmd_keyword_count := find_cmd_keyword_count text
     cmd_special_count := count_cmd_special text
     path_traversal_count := count_path_traversal text
     sensitive_file_count := count_sensitive_files text
     shell_pattern_count := count_shell_patterns text
     sql_comment_count := count_sql_comments text
     sql_keyword_count := count_sql_keywords text
     sql_boolean_ops := count_sql_boolean_ops text
     sql_func_count := count_sql_funcs text
     sql_logic_count := count_sql_logic_patterns text
     xss_tag_count := count_xss_tags text
     xss_event_count := count_xss_events text
     js_proto_count := count_js_protocols text
     xss_js_uri_count := count_xss_js_uri text
     xss_rare_tag_count := count_rare_html_tags text
     unicode_escape_count := count_unicode_escapes text
     base64_chunk_count := count_base64_chunks text })

/-- Base-score table `BASE` of `compute_severity`
(src/alert_parser.py). -/
def baseScores : List (String × Nat) :=
  [("Benign", 0), ("SQL Injection", 85), ("XSS", 50),
   ("Command Injection", 95), ("Broken Authentication", 70)]

/-- Embedding of `compute_severity` (src/alert_parser.py):
`BASE.get(label, 0)` plus seven conditional bonuses, capped by
`min(score, 100)`. -/
def compute_severity {α : Type} [LinearOrder α] [OfNat α 4]
    (meta : Meta α) (attack_label : String) : Nat :=
  let score := (baseScores.lookup attack_label).getD 0
    + (if 4 < meta.entropy then 10 else 0)
    + (if 0 < meta.base64_chunk_count then 5 else 0)
    + (if 0 < meta.shell_pattern_count then 10 else 0)
    + (if 0 < meta.path_traversal_count then 10 else 0)
    + (if 0 < meta.xss_event_count then 5 else 0)
    + (if 0 < meta.cmd_special_count then 5 else 0)
    + (if 0 < meta.sql_comment_count then 5 else 0)
  min score 100

/-- Embedding of `severity_level` (src/alert_parser.py). -/
def severity_level (score : Nat) : String :=
  if 90 ≤ score then "CRITICAL"
  else if 70 ≤ score then "HIGH"
  else if 40 ≤ score then "MEDIUM"
  else if 10 ≤ score then "LOW"
  else "SAFE"

/-- Base score by category as the specification words it. -/
def specBase (label : String) : Nat :=
  if label = "Benign" then 0
  else if label = "SQL Injection" then 85
  else if label = "XSS" then 50
  else if label = "Command Injection" then 95
  else if label = "Broken Authentication" then 70
  else 0

/-- Sum of the triggered severity bonuses as the specification words
them: entropy above four gives ten, and each positive trigger count
gives its fixed bonus, each applied once. -/
def specBonusSum {α : Type} [LinearOrder α] [OfNat α 4] (meta : Meta α) : Nat :=
  (if 4 < meta.entropy then 10 else 0)
  + (if 0 < meta.base64_chunk_count then 5 else 0)
  + (if 0 < meta.shell_pattern_count then 10 else 0)
  + (if 0 < meta.path_traversal_count then 10 else 0)
  + (if 0 < meta.xss_event_count then 5 else 0)
  + (if 0 < meta.cmd_special_count then 5 else 0)
  + (if 0 < meta.sql_comment_count then 5 else 0)

/-- JSON whitespace skip, matching the `json` module grammar. -/
def skipJsonWs (l : List Char) : List Char :=
  l.dropWhile (fun c => c = ' ' || c = '\t' || c = '\n' || c = '\r')

/-- String-literal body parser of the JSON grammar (strict mode: raw
control characters are rejected; surrogate pairs combine; a lone
surrogate is modelled as the replacement character — CPython keeps it as
a lone surrogate code unit, which `Char` cannot represent, and no claim
exercises one). -/
def parseJStringGo : Nat → List Char → List Char → Option (String × List Char)
  | 0, _, _ => none
  | _ + 1, [], _ => none
  | fuel + 1, c1 :: rest, acc =>
    if c1 = '"' then some (String.mk acc.reverse, rest)
    else if c1 = bslash then
      match rest with
      | [] => none
      | e :: r2 =>
        if e = '"' then parseJStringGo fuel r2 ('"' :: acc)
        else if e = bslash then parseJStringGo fuel r2 (bslash :: acc)
        else if e = '/' then parseJStringGo fuel r2 ('/' :: acc)
        else if e = 'b' then parseJStringGo fuel r2 (Char.ofNat 8 :: acc)
        else if e = 'f' then parseJStringGo fuel r2 (Char.ofNat 12 :: acc)
        else if e = 'n' then parseJStringGo fuel r2 ('\n' :: acc)
        else if e = 'r' then parseJStringGo fuel r2 ('\r' :: acc)
        else if e = 't' then parseJStringGo fuel r2 ('\t' :: acc)
        else if e = 'u' then
          match r2 with
          | h1 :: h2 :: h3 :: h4 :: r3 =>
            match hexVal h1, hexVal h2, hexVal h3, hexVal h4 with
            | some a, some b, some c, some d =>
              let cp := 4096 * a + 256 * b + 16 * c + d
              if 55296 ≤ cp && cp ≤ 56319 then
                match r3 with
                | e2 :: u2 :: g1 :: g2 :: g3 :: g4 :: r4 =>
                  if e2 = bslash && u2 = 'u' then
                    match hexVal g1, hexVal g2, hexVal g3, hexVal g4 with
                    | some a2, some b2, some c2, some d2 =>
                      let cp2 := 4096 * a2 + 256 * b2 + 16 * c2 + d2
                      if 56320 ≤ cp2 && cp2 ≤ 57343 then
                        parseJStringGo fuel r4
                          (Char.ofNat (65536 + (cp - 55296) * 1024 + (cp2 - 56320)) :: acc)
                      else parseJStringGo fuel (e2 :: u2 :: g1 :: g2 :: g3 :: g4 :: r4)
                        (replChar :: acc)
                    | _, _, _, _ => parseJStringGo fuel r3 (replChar :: acc)
                  else parseJStringGo fuel r3 (replChar :: acc)
                | _ => parseJStringGo fuel r3 (replChar :: acc)
              else if 56320 ≤ cp && cp ≤ 57343 then
                parseJStringGo fuel r3 (replChar :: acc)
              else parseJStringGo fuel r3 (Char.ofNat cp :: acc)
            | _, _, _, _ => none
          | _ => none
        else none
    else if c1.toNat < 32 then none
    else parseJStringGo fuel rest (c1 :: acc)

/-- Integer-part digits of a JSON number: `0` or a nonzero-led run. -/
def parseIntDigits (l : List Char) : Option (List Char × List Char) :=
  match l with
  | '0' :: r => some (['0'], r)
  | c :: r =>
    if isDigitChar c then
      let run := (c :: r).takeWhile isDigitChar
      some (run, (c :: r).drop run.length)
    else none
  | [] => none

/-- Numeric value of a digit run. -/
def digitsVal (l : List Char) : Nat :=
  l.foldl (fun acc c => acc * 10 + (c.toNat - 48)) 0

/-- Number parser of the JSON grammar.  Like `json.loads`, a number
without fraction and exponent is an `int`, anything else a float
(held as an exact rational). -/
def parseJNumber (l : List Char) : Option (Json × List Char) :=
  let (neg, l1) := match l with
    | '-' :: r => (true, r)
    | _ => (false, l)
  match parseIntDigits l1 with
  | none => none
  | some (ip, r1) =>
    let (fr, r2) := match r1 with
      | '.' :: rf =>
        let run := rf.takeWhile isDigitChar
        if run.isEmpty then ([], r1) else (run, rf.drop run.length)
      | _ => ([], r1)
    let fracOk := match r1 with
      | '.' :: rf => !(rf.takeWhile isDigitChar).isEmpty
      | _ => true
    if !fracOk then none
    else
      let expParse : Option (Int × List Char) := match r2 with
        | c :: re =>
          if c = 'e' || c = 'E' then
            let (esign, re2) := match re with
              | '+' :: rr => ((1 : Int), rr)
              | '-' :: rr => ((-1 : Int), rr)
              | rr => ((1 : Int), rr)
            let run := re2.takeWhile isDigitChar
            if run.isEmpty then none
            else some (esign * (digitsVal run : Int), re2.drop run.length)
          else some (0, r2)
        | [] => some (0, r2)
      match expParse with
      | none => none
      | some (ex, r3) =>
        let isInt := fr.isEmpty &&
          (match r2 with
           | c :: _ => !(c = 'e' || c = 'E')
           | [] => true)
        if isInt then
          let v : Int := (digitsVal ip : Int)
          some (.int (if neg then -v else v), r3)
        else
          let mant : Int := (digitsVal (ip ++ fr) : Int)
          let e : Int := ex - (fr.length : Int)
          let mag : Rat :=
            if 0 ≤ e then (mant * 10 ^ e.toNat : Int)
            else (mant : Rat) / ((10 : Rat) ^ (-e).toNat)
          some (.float (if neg then -mag else mag), r3)

/-- Ordered insert-or-update of an object key, matching dict assignment
(an existing key keeps its position and takes the new value). -/
def insertKV (kvs : List (String × Json)) (k : String) (v : Json) : List (String × Json) :=
  match kvs with
  | [] => [(k, v)]
  | (k0, v0) :: rest =>
    if k0 == k then (k0, v) :: rest else (k0, v0) :: insertKV rest k v

mutual

/-- Recursive-descent value parser for the strict JSON grammar of
`json.loads` (the NaN/Infinity extension of CPython is not modelled;
no claim feeds such a literal). -/
def parseJValue : Nat → List Char → Option (Json × List Char)
  | 0, _ => none
  | fuel + 1, l =>
    match skipJsonWs l with
    | 'n' :: 'u' :: 'l' :: 'l' :: r => some (.null, r)
    | 't' :: 'r' :: 'u' :: 'e' :: r => some (.bool true, r)
    | 'f' :: 'a' :: 'l' :: 's' :: 'e' :: r => some (.bool false, r)
    | '"' :: r =>
      match parseJStringGo (r.length + 1) r [] with
      | some (s, rest) => some (.str s, rest)
      | none => none
    | '[' :: r =>
      match skipJsonWs r with
      | ']' :: r2 => some (.arr [], r2)
      | r2 => parseJArrayItems fuel r2 []
    | c :: r =>
      if c = obrace then
        match skipJsonWs r with
        | c2 :: r2 => if c2 = cbrace then some (.obj [], r2) else parseJObjItems fuel (c2 :: r2) []
        | [] => none
      else parseJNumber (c :: r)
    | [] => none

/-- Array-element loop of the JSON parser. -/
def parseJArrayItems : Nat → List Char → List Json → Option (Json × List Char)
  | 0, _, _ => none
  | fuel + 1, l, acc =>
    match parseJValue fuel l with
    | none => none
    | some (v, r) =>
      match skipJsonWs r with
      | ',' :: r2 => parseJArrayItems fuel r2 (v :: acc)
      | ']' :: r2 => some (.arr (v :: acc).reverse, r2)
      | _ => none

/-- Object-member loop of the JSON parser. -/
def parseJObjItems : Nat → List Char → List (String × Json) → Option (Json × List Char)
  | 0, _, _ => none
  | fuel + 1, l, acc =>
    match skipJsonWs l with
    | '"' :: r =>
      match parseJStringGo (r.length + 1) r [] with
      | none => none
      | some (k, r2) =>
        match skipJsonWs r2 with
        | ':' :: r3 =>
          match parseJValue fuel r3 with
          | none => none
          | some (v, r4) =>
            match skipJsonWs r4 with
            | ',' :: r5 => parseJObjItems fuel r5 (insertKV acc k v)
            | c :: r5 =>
              if c = cbrace then some (.obj (insertKV acc k v), r5) else none
            | [] => none
        | _ => none
    | _ => none

end

/-- Model of `json.loads`: one JSON value surrounded by optional
whitespace; anything else raises (here: `none`). -/
def jsonParse (s : String) : Option Json :=
  match parseJValue (s.data.length + 2) s.data with
  | some (j, rest) => if (skipJsonWs rest).isEmpty then some j else none
  | none => none

/-- Line splitting of Python file iteration.  A trailing newline yields a
final empty string here where Python yields none, but `load_logs` skips
blank lines, so the two agree. -/
def splitLines : List Char → List (List Char)
  | [] => [[]]
  | c :: r =>
    match splitLines r with
    | [] => [[c]]
    | h :: t => if c = '\n' then [] :: h :: t else (c :: h) :: t

/-- One line of the JSONL branch of `load_logs`: blank lines are skipped,
a line that fails `json.loads` is skipped, and a record on which
`parse_log_item` raises is skipped by the bare `except` of the loop. -/
def loadLogsLine (now : String) (line : List Char) : Option NormalizedRecord :=
  if (pyStrip line).isEmpty then none
  else
    match jsonParse (String.mk (pyStrip line)) with
    | some j => (parse_log_item j now).toOption
    | none => none

/-- Array-branch loop of `load_logs`: items are normalized in order with
no per-item handler, so the first raising item aborts the loop and the
outer handler returns the records accumulated so far. -/
def parseItemsUntilError (now : String) : List Json → List NormalizedRecord
  | [] => []
  | j :: rest =>
    match parse_log_item j now with
    | .ok r => r :: parseItemsUntilError now rest
    | .error _ => []

/-- Embedding of `load_logs` (src/alert_parser.py).  The input is the
file content, `none` when reading raises (missing or unreadable file):
the outer handler reports and the accumulated (empty) list is returned.
A stripped content starting with `[` goes through the JSON-array branch;
iterating a successfully parsed non-array raises before any append,
yielding the empty list.  Otherwise each line is parsed and normalized
independently, malformed ones skipped. -/
def load_logs (now : String) : Option String → List NormalizedRecord
  | none => []
  | some raw =>
    let content := pyStrip raw.data
    if content.headD ' ' = '[' then
      match jsonParse (String.mk content) with
      | some (.arr items) => parseItemsUntilError now items
      | some _ => []
      | none => []
    else (splitLines raw.data).filterMap (loadLogsLine now)

/-- Embedding of `broadcast` (src/alert_ws_server.py).  Subscribers are
identified by numbers; `fails c` tells whether `ws.send_json` raises for
subscriber `c` (the alert payload does not influence delivery).  The
result is the list of subscribers that received the alert, in send
order, and the client list after the dead-client removal loop
(`list.remove` drops the first occurrence, hence `List.erase`). -/
def broadcast (fails : Nat → Bool) (clients : List Nat) : List Nat × List Nat :=
  let delivered := clients.filter (fun c => !fails c)
  let dead_clients := clients.filter fails
  (delivered, dead_clients.foldl (fun cs c => cs.erase c) clients)

/-- Per-message step of the `ws_alerts` handler (src/alert_ws_server.py):
after normalizing and scoring the received event, the handler calls
`broadcast` on the full client list — which includes the sender, since
every accepted socket is appended to `clients` — without excluding the
sender.  The alert payload is irrelevant to the recipient set, so the
step is `broadcast` itself; the sender argument records who sent the
event and is (pointedly) not consulted. -/
def ws_alerts_step (_sender : Nat) (fails : Nat → Bool) (clients : List Nat) :
    List Nat × List Nat :=
  broadcast fails clients

/-- Row collection of `read_jsonl` (src/dashboard_api.py): non-blank
lines that parse as JSON, in file order. -/
def read_jsonl_rows (lines : List (List Char)) : List Json :=
  lines.filterMap (fun line =>
    let t := pyStrip line
    if t.isEmpty then none else jsonParse (String.mk t))

/-- Python slice `rows[-limit:]`: the trailing `limit` elements, except
that a zero limit yields the whole list (since `-0 == 0`). -/
def pyLastSlice {β : Type} (rows : List β) (limit : Nat) : List β :=
  if limit = 0 then rows else rows.drop (rows.length - limit)

/-- Embedding of `read_jsonl` (src/dashboard_api.py): `none` models a
missing file; otherwise valid rows are collected and the slice
`rows[-limit:]` is returned (default limit 5000). -/
def read_jsonl (file : Option (List (List Char))) (limit : Nat) : List Json :=
  match file with
  | none => []
  | some lines => pyLastSlice (read_jsonl_rows lines) limit

/-- Counter key of one row in `stats`: `r.get("attack") or "Unknown"`.
A non-dict row raises `AttributeError` out of the endpoint. -/
def attackKey : Json → Except String Json
  | .obj kvs => .ok (pyOr (objGet kvs "attack") (.str "Unknown"))
  | _ => .error "AttributeError: object has no attribute get"

/-- Embedding of the `stats` endpoint (src/dashboard_api.py): reads the
rows with the default limit 5000, aggregates the per-row category keys
(built before the total, so a raising row aborts the endpoint), and
reports the row count as `total`.  The Counter dict is represented by
the key list; `categoryCount` below reads off one category. -/
def stats (file : Option (List (List Char))) : Except String (Nat × List Json) :=
  let rows := read_jsonl file 5000
  match rows.mapM attackKey with
  | .ok keys => .ok (rows.length, keys)
  | .error e => .error e

/-- Count of one string category in the aggregated Counter keys
(`counts[cat]` of the stats payload, zero for an absent category). -/
def categoryCount (keys : List Json) (cat : String) : Nat :=
  keys.countP (fun j =>
    match j with
    | .str s => s == cat
    | _ => false)

/-- Sample rational feature vector used by the severity witnesses. -/
def sampleMeta : Meta ℚ :=
  { url_length := 12, entropy := 5, num_special := 1, special_ratio := 0,
    longest_special_seq := 1, cmd_keyword_count := 0, cmd_special_count := 0,
    path_traversal_count := 0, sensitive_file_count := 0, shell_pattern_count := 0,
    sql_comment_count := 1, sql_keyword_count := 0, sql_boolean_ops := 0,
    sql_func_count := 0, sql_logic_count := 0, xss_tag_count := 0,
    xss_event_count := 0, js_proto_count := 0, xss_js_uri_count := 0,
    xss_rare_tag_count := 0, unicode_escape_count := 0, base64_chunk_count := 0 }

/-- Scenario-B input url of the specification. -/
def c3url : String :=
  "/login?user=admin" ++ String.mk [squote] ++ " OR " ++
    String.mk [squote, '1', squote, '=', squote, '1']

/-- Decoded text of the Scenario-B event, as `preprocess` builds it. -/
def c3text : List Char := normalize_for_tfidf (c3url.data ++ ' ' :: ("" : String).data)

/-- Expected decoded form of the Scenario-B text. -/
def c3decoded : String :=
  "/login?user=admin" ++ String.mk [squote] ++ " or " ++
    String.mk [squote, '1', squote, '=', squote, '1']

/-- Adjacent-character relation: no two consecutive whitespace characters. -/
def spR (a b : Char) : Prop := ¬(isSpaceChar a = true ∧ isSpaceChar b = true)

/-- Object test on a JSON value. -/
def isObjB : Json → Bool
  | .obj _ => true
  | _ => false

/-- Total variant of the per-row Counter key of `stats`, defined on
object rows exactly as the code computes it. -/
def attackKeyD : Json → Json
  | .obj kvs => pyOr (objGet kvs "attack") (.str "Unknown")
  | _ => .str "Unknown"

/-- Sample persisted result line used in the stats theorems. -/
def c9line : String := "\x7b\"attack\": \"XSS\"\x7d"

/-- Helper: the base table lookup agrees with the specification wording
on the five known categories. -/
lemma lookup_baseScores_eq_specBase (label : String)
    (h : label ∈ ["Benign", "SQL Injection", "XSS", "Command Injection",
      "Broken Authentication"]) :
    (baseScores.lookup label).getD 0 = specBase label := by
  simp only [List.mem_cons, List.not_mem_nil, or_false] at h
  rcases h with h | h | h | h | h <;> subst h <;> decide

/-- C2: for every category label among the five known ones and every
feature vector, `compute_severity` returns the clamped sum
`min(100, base(category) + triggered bonuses)` with the base and bonus
tables of the specification, and the result lies in `[0, 100]`. -/
theorem compute_severity_spec {α : Type} [LinearOrder α] [OfNat α 4]
    (meta : Meta α) (label : String)
    (h : label ∈ ["Benign", "SQL Injection", "XSS", "Command Injection",
      "Broken Authentication"]) :
    compute_severity meta label = min 100 (specBase label + specBonusSum meta) ∧
    0 ≤ compute_severity meta label ∧ compute_severity meta label ≤ 100 := by
  have hb := lookup_baseScores_eq_specBase label h
  refine ⟨?_, Nat.zero_le _, ?_⟩
  · simp only [compute_severity, specBonusSum, hb]
    omega
  · simp only [compute_severity]
    exact Nat.min_le_right _ _

/-- Witness for C2 at a concrete label and feature vector. -/
theorem compute_severity_spec_witness :
    ("SQL Injection" ∈ ["Benign", "SQL Injection", "XSS", "Command Injection",
      "Broken Authentication"]) ∧
    (compute_severity sampleMeta "SQL Injection" =
        min 100 (specBase "SQL Injection" + specBonusSum sampleMeta) ∧
      0 ≤ compute_severity sampleMeta "SQL Injection" ∧
      compute_severity sampleMeta "SQL Injection" ≤ 100) :=
  ⟨by decide, compute_severity_spec sampleMeta "SQL Injection" (by decide)⟩

/-- C10: `compute_severity` is total in the label: any label outside the
five known categories takes base score zero via `BASE.get(label, 0)`,
so the result is the clamped bonus sum, identical to the score of
`Benign`. -/
theorem compute_severity_unknown_label {α : Type} [LinearOrder α] [OfNat α 4]
    (meta : Meta α) (label : String)
    (h : label ∉ ["Benign", "SQL Injection", "XSS", "Command Injection",
      "Broken Authentication"]) :
    compute_severity meta label = min 100 (specBonusSum meta) ∧
    compute_severity meta label = compute_severity meta "Benign" := by
  simp only [List.mem_cons, List.not_mem_nil, or_false, not_or] at h
  obtain ⟨h1, h2, h3, h4, h5⟩ := h
  have hl : (baseScores.lookup label).getD 0 = 0 := by
    simp only [baseScores, List.lookup,
      beq_eq_false_iff_ne.mpr h1, beq_eq_false_iff_ne.mpr h2,
      beq_eq_false_iff_ne.mpr h3, beq_eq_false_iff_ne.mpr h4,
      beq_eq_false_iff_ne.mpr h5]
    rfl
  have hbenign : (baseScores.lookup "Benign").getD 0 = 0 := by decide
  constructor
  · simp only [compute_severity, specBonusSum, hl]
    omega
  · simp only [compute_severity, hl, hbenign]

/-- Witness for C10 at a concrete unknown label. -/
theorem compute_severity_unknown_label_witness :
    ("Totally Unknown" ∉ ["Benign", "SQL Injection", "XSS", "Command Injection",
      "Broken Authentication"]) ∧
    (compute_severity sampleMeta "Totally Unknown" = min 100 (specBonusSum sampleMeta) ∧
      compute_severity sampleMeta "Totally Unknown" = compute_severity sampleMeta "Benign") :=
  ⟨by decide, compute_severity_unknown_label sampleMeta "Totally Unknown" (by decide)⟩

/-- C1: evaluation of the normalizer at a mapping whose `headers` value
is a string.  The ordered ip candidates all miss, so the code consults
`item["headers"].get(...)`; a non-dict `headers` value has no `get`
attribute and the call raises `AttributeError`, contradicting the
total-function contract of the normalizer. -/
theorem parse_log_item_headers_raises :
    parse_log_item (.obj [("headers", .str "x")]) "2026-01-01T00:00:00" =
      .error "AttributeError: object has no attribute get" := by decide

/-- Helper: the or-chain time resolution of `parse_log_item` agrees with
the first-truthy candidate-list resolution `resolveTimeSpec`. -/
lemma timeToStr_chain_eq_spec (kvs : List (String × Json)) (now : String) :
    timeToStr (pyOr (objGet kvs "time") (pyOr (objGet kvs "timestamp")
      (pyOr (objGet kvs "ts") (.str now)))) = resolveTimeSpec kvs now := by
  unfold resolveTimeSpec
  cases hg1 : objGet kvs "time" with
  | some v1 =>
    cases htv1 : jtruthy v1 with
    | true => simp [pyOr, List.findSome?, hg1, htv1]
    | false =>
      cases hg2 : objGet kvs "timestamp" with
      | some v2 =>
        cases htv2 : jtruthy v2 with
        | true => simp [pyOr, List.findSome?, hg1, htv1, hg2, htv2]
        | false =>
          cases hg3 : objGet kvs "ts" with
          | some v3 =>
            cases htv3 : jtruthy v3 with
            | true => simp [pyOr, List.findSome?, hg1, htv1, hg2, htv2, hg3, htv3]
            | false =>
              simp [pyOr, List.findSome?, hg1, htv1, hg2, htv2, hg3, htv3, timeToStr, pyStr]
          | none => simp [pyOr, List.findSome?, hg1, htv1, hg2, htv2, hg3, timeToStr, pyStr]
      | none =>
        cases hg3 : objGet kvs "ts" with
        | some v3 =>
          cases htv3 : jtruthy v3 with
          | true => simp [pyOr, List.findSome?, hg1, htv1, hg2, hg3, htv3]
          | false => simp [pyOr, List.findSome?, hg1, htv1, hg2, hg3, htv3, timeToStr, pyStr]
        | none => simp [pyOr, List.findSome?, hg1, htv1, hg2, hg3, timeToStr, pyStr]
  | none =>
    cases hg2 : objGet kvs "timestamp" with
    | some v2 =>
      cases htv2 : jtruthy v2 with
      | true => simp [pyOr, List.findSome?, hg1, hg2, htv2]
      | false =>
        cases hg3 : objGet kvs "ts" with
        | some v3 =>
          cases htv3 : jtruthy v3 with
          | true => simp [pyOr, List.findSome?, hg1, hg2, htv2, hg3, htv3]
          | false => simp [pyOr, List.findSome?, hg1, hg2, htv2, hg3, htv3, timeToStr, pyStr]
        | none => simp [pyOr, List.findSome?, hg1, hg2, htv2, hg3, timeToStr, pyStr]
    | none =>
      cases hg3 : objGet kvs "ts" with
      | some v3 =>
        cases htv3 : jtruthy v3 with
        | true => simp [pyOr, List.findSome?, hg1, hg2, hg3, htv3]
        | false => simp [pyOr, List.findSome?, hg1, hg2, hg3, htv3, timeToStr, pyStr]
      | none => simp [pyOr, List.findSome?, hg1, hg2, hg3, timeToStr, pyStr]

/-- C5 counterexample: an event whose `time` key is present with value
`0` does not normalize to the epoch-0 ISO string — the or-chain treats
`0` as falsy and falls through to the current instant.  The second
conjunct shows the model renders epoch 0 exactly as the claim expects,
so the discrepancy is the fallthrough, not the rendering. -/
theorem parse_log_item_time_zero_counterexample :
    parse_log_item (.obj [("time", .int 0)]) "2026-01-02T03:04:05" =
      .ok { time := "2026-01-02T03:04:05", ip := "0.0.0.0", method := "GET",
            url := "", body := "" } ∧
    String.mk (isoOfEpoch 0) = "1970-01-01T00:00:00" ∧
    ("2026-01-02T03:04:05" : String) ≠ "1970-01-01T00:00:00" := by decide

/-- C5 (amended): whenever `parse_log_item` returns a record, its time
field is the first-truthy resolution of the ordered candidate list
`time, timestamp, ts` (keys bound to falsy values such as `0` are
skipped), defaulting to the current instant, with numeric winners
converted from epoch seconds to ISO-8601 and stringified on conversion
failure. -/
theorem parse_log_item_time_spec (kvs : List (String × Json)) (now : String)
    (r : NormalizedRecord) (h : parse_log_item (.obj kvs) now = .ok r) :
    r.time = resolveTimeSpec kvs now := by
  rw [← timeToStr_chain_eq_spec kvs now]
  simp only [parse_log_item] at h
  split at h
  · exact absurd h (by simp)
  · simp only [Except.ok.injEq] at h
    subst h
    rfl

/-- Witness for C5 at a concrete event with an epoch-second `ts`. -/
theorem parse_log_item_time_spec_witness :
    parse_log_item (.obj [("ts", .int 1700000000)]) "X" =
      .ok { time := "2023-11-14T22:13:20", ip := "0.0.0.0", method := "GET",
            url := "", body := "" } ∧
    ({ time := "2023-11-14T22:13:20", ip := "0.0.0.0", method := "GET",
       url := "", body := "" } : NormalizedRecord).time =
      resolveTimeSpec [("ts", .int 1700000000)] "X" :=
  ⟨by decide, parse_log_item_time_spec [("ts", .int 1700000000)] "X" _ (by decide)⟩

/-- Helper: the integer inequality behind the entropy bound of the
Scenario-B text. -/
lemma c3_key : (112 : ℝ) < 10 * Real.logb 2 28 + 14 * Real.logb 2 14 + 4 * Real.logb 2 7 := by
  have h2 : (0:ℝ) < Real.log 2 := Real.log_pos (by norm_num)
  have hlog : Real.log ((2:ℝ) ^ (112:ℕ)) < Real.log ((28:ℝ) ^ (10:ℕ) * 14 ^ (14:ℕ) * 7 ^ (4:ℕ)) := by
    apply Real.log_lt_log (by positivity)
    norm_num
  rw [Real.log_mul (by positivity) (by positivity),
      Real.log_mul (by positivity) (by positivity),
      Real.log_pow, Real.log_pow, Real.log_pow, Real.log_pow] at hlog
  push_cast at hlog
  simp only [Real.logb]
  rw [show (10:ℝ) * (Real.log 28 / Real.log 2) + 14 * (Real.log 14 / Real.log 2) +
      4 * (Real.log 7 / Real.log 2) =
      (10 * Real.log 28 + 14 * Real.log 14 + 4 * Real.log 7) / Real.log 2 from by ring]
  rw [lt_div_iff₀ h2]
  linarith [hlog]

/-- Helper: the Shannon entropy of the decoded Scenario-B text exceeds
four.  The 28-character text has ten characters of count one, seven of
count two and one of count four, so the bound reduces to
`2 ^ 112 < 28 ^ 10 * 14 ^ 14 * 7 ^ 4`. -/
lemma c3_entropy : (4 : ℝ) < calc_entropy c3text := by
  have hded : c3text.dedup =
      ['/', 'l', 'g', '?', 'u', 's', 'e', 'a', 'd', 'm', 'i', 'n', 'o', 'r',
       ' ', '=', squote, '1'] := by decide
  have hemp : ¬ (c3text.isEmpty = true) := by decide
  rw [calc_entropy, if_neg hemp, hded]
  simp only [List.map_cons, List.map_nil, List.sum_cons, List.sum_nil]
  rw [show c3text.length = 28 from by decide]
  rw [show c3text.count '/' = 1 from by decide, show c3text.count 'l' = 1 from by decide,
      show c3text.count 'g' = 1 from by decide, show c3text.count '?' = 1 from by decide,
      show c3text.count 'u' = 1 from by decide, show c3text.count 's' = 1 from by decide,
      show c3text.count 'e' = 1 from by decide, show c3text.count 'a' = 1 from by decide,
      show c3text.count 'd' = 1 from by decide, show c3text.count 'm' = 1 from by decide,
      show c3text.count 'i' = 2 from by decide, show c3text.count 'n' = 2 from by decide,
      show c3text.count 'o' = 2 from by decide, show c3text.count 'r' = 2 from by decide,
      show c3text.count ' ' = 2 from by decide, show c3text.count '=' = 2 from by decide,
      show c3text.count squote = 4 from by decide, show c3text.count '1' = 2 from by decide]
  push_cast
  have l28 : Real.logb 2 ((1:ℝ)/28) = -Real.logb 2 28 := by
    rw [one_div, Real.logb_inv]
  have l14 : Real.logb 2 ((2:ℝ)/28) = -Real.logb 2 14 := by
    rw [show ((2:ℝ)/28) = ((14:ℝ))⁻¹ from by norm_num, Real.logb_inv]
  have l7 : Real.logb 2 ((4:ℝ)/28) = -Real.logb 2 7 := by
    rw [show ((4:ℝ)/28) = ((7:ℝ))⁻¹ from by norm_num, Real.logb_inv]
  rw [l28, l14, l7]
  linarith [c3_key]

/-- Helper: severity of the Scenario-B event under the classifier label
of the scenario: the entropy bonus fires and no other trigger does, so
the score is `85 + 10 = 95`. -/
lemma c3_severity : compute_severity (preprocess c3url "").2 "SQL Injection" = 95 := by
  have hent : (preprocess c3url "").2.entropy = calc_entropy c3text := rfl
  have hb64 : (preprocess c3url "").2.base64_chunk_count = 0 := by decide
  have hshell : (preprocess c3url "").2.shell_pattern_count = 0 := by decide
  have hpath : (preprocess c3url "").2.path_traversal_count = 0 := by decide
  have hxss : (preprocess c3url "").2.xss_event_count = 0 := by decide
  have hcmd : (preprocess c3url "").2.cmd_special_count = 0 := by decide
  have hsql : (preprocess c3url "").2.sql_comment_count = 0 := by decide
  simp only [compute_severity]
  rw [show (baseScores.lookup "SQL Injection").getD 0 = 85 from by decide]
  rw [if_pos (hent ▸ c3_entropy), if_neg (by simp [hb64]), if_neg (by simp [hshell]),
      if_neg (by simp [hpath]), if_neg (by simp [hxss]), if_neg (by simp [hcmd]),
      if_neg (by simp [hsql])]
  decide

/-- C3 counterexample: for the Scenario-B event, with the classifier
returning the category SQL Injection, the computed severity is 95, not
85, and the tier is not HIGH — the entropy bonus trigger fires on the
extracted feature vector. -/
theorem c3_severity_counterexample :
    compute_severity (preprocess c3url "").2 "SQL Injection" = 95 ∧
    compute_severity (preprocess c3url "").2 "SQL Injection" ≠ 85 ∧
    severity_level (compute_severity (preprocess c3url "").2 "SQL Injection") ≠ "HIGH" := by
  refine ⟨c3_severity, ?_, ?_⟩ <;> rw [c3_severity] <;> decide

/-- C3 (amended): on the Scenario-B event the decoded text is
`/login?user=admin' or '1'='1`, its Shannon entropy exceeds four so the
entropy bonus fires, none of the other six bonus triggers fires, and
the severity under the scenario classifier output is 95 with tier
CRITICAL. -/
theorem c3_severity_amended :
    String.mk (preprocess c3url "").1 = c3decoded ∧
    (4 : ℝ) < (preprocess c3url "").2.entropy ∧
    (preprocess c3url "").2.base64_chunk_count = 0 ∧
    (preprocess c3url "").2.shell_pattern_count = 0 ∧
    (preprocess c3url "").2.path_traversal_count = 0 ∧
    (preprocess c3url "").2.xss_event_count = 0 ∧
    (preprocess c3url "").2.cmd_special_count = 0 ∧
    (preprocess c3url "").2.sql_comment_count = 0 ∧
    compute_severity (preprocess c3url "").2 "SQL Injection" = 95 ∧
    severity_level (compute_severity (preprocess c3url "").2 "SQL Injection") = "CRITICAL" := by
  refine ⟨by decide, ?_, by decide, by decide, by decide, by decide, by decide, by decide,
    c3_severity, ?_⟩
  · exact (show (preprocess c3url "").2.entropy = calc_entropy c3text from rfl) ▸ c3_entropy
  · rw [c3_severity]
    decide

lemma pctTokenizeF_no_pct : ∀ (fuel : Nat) (l : List Char), l.length < fuel → '%' ∉ l →
    pctTokenizeF fuel l = l.map .raw
  | 0, l, hf, _ => absurd hf (by omega)
  | _ + 1, [], _, _ => rfl
  | fuel + 1, c :: rest, hf, hm => by
    have hc : ¬ (c = '%') := fun hc => hm (hc ▸ List.mem_cons_self c rest)
    have hrest : '%' ∉ rest := fun hr => hm (List.mem_cons_of_mem _ hr)
    have hlen : rest.length < fuel := by simpa using Nat.lt_of_succ_lt_succ hf
    simp [pctTokenizeF, hc, pctTokenizeF_no_pct fuel rest hlen hrest]

lemma emitToks_map_raw : ∀ l : List Char, emitToks (l.map .raw) [] = l
  | [] => rfl
  | c :: rest => by simp [emitToks, utf8Decode, utf8DecodeF, emitToks_map_raw rest]

lemma unquote_id {l : List Char} (h : '%' ∉ l) : unquote l = l := by
  unfold unquote pctTokenize
  rw [pctTokenizeF_no_pct _ l (by omega) h, emitToks_map_raw]

lemma plusToSpace_id {l : List Char} (h : '+' ∉ l) : plusToSpace l = l := by
  unfold plusToSpace
  rw [List.map_congr_left (fun c hc => if_neg (fun he : c = '+' => h (he ▸ hc)))]
  exact List.map_id' l

lemma unquote_plus_id {l : List Char} (hp : '+' ∉ l) (hpc : '%' ∉ l) :
    unquote_plus l = l := by
  unfold unquote_plus
  rw [plusToSpace_id hp, unquote_id hpc]

lemma decodeRounds_fixed {l : List Char} (h : unquote_plus l = l) :
    ∀ n, decodeRounds n l = l
  | 0 => rfl
  | n + 1 => by simp [decodeRounds, h]

lemma htmlUnescape_no_amp {l : List Char} (h : '&' ∉ l) : htmlUnescape l = l := by
  unfold htmlUnescape
  rw [if_neg]
  simpa using h

lemma normalize_clean_eq {l : List Char} (hp : '+' ∉ l) (hpc : '%' ∉ l) (ha : '&' ∉ l) :
    normalize_for_tfidf l = pyStrip (collapseWs ((l.map lowerChar).map replRNT)) := by
  simp only [normalize_for_tfidf]
  rw [decodeRounds_fixed (unquote_plus_id hp hpc), htmlUnescape_no_amp ha]



lemma isUpperChar_bounds {c : Char} (h : isUpperChar c = true) :
    65 ≤ c.toNat ∧ c.toNat ≤ 90 := by
  simpa [isUpperChar] using h

lemma upperShift_not_upper : ∀ {n : Nat}, 65 ≤ n → n ≤ 90 →
    isUpperChar (Char.ofNat (n + 32)) = false := by
  intro n h1 h2
  interval_cases n <;> decide

lemma upperShift_ne_special : ∀ {n : Nat}, 65 ≤ n → n ≤ 90 →
    Char.ofNat (n + 32) ≠ '%' ∧ Char.ofNat (n + 32) ≠ '+' ∧ Char.ofNat (n + 32) ≠ '&' := by
  intro n h1 h2
  interval_cases n <;> exact ⟨by decide, by decide, by decide⟩

lemma lowerChar_idem (c : Char) : lowerChar (lowerChar c) = lowerChar c := by
  unfold lowerChar
  by_cases h : isUpperChar c = true
  · rw [if_pos h, if_neg]
    rw [upperShift_not_upper (isUpperChar_bounds h).1 (isUpperChar_bounds h).2]
    simp
  · rw [if_neg h, if_neg h]

lemma lowerChar_eq_special {c d : Char} (hd : d = '%' ∨ d = '+' ∨ d = '&')
    (he : lowerChar c = d) : c = d := by
  by_cases h : isUpperChar c = true
  · exfalso
    rw [lowerChar, if_pos h] at he
    obtain ⟨h1, h2⟩ := isUpperChar_bounds h
    obtain ⟨n1, n2, n3⟩ := upperShift_ne_special h1 h2
    rcases hd with rfl | rfl | rfl
    · exact n1 he
    · exact n2 he
    · exact n3 he
  · rwa [lowerChar, if_neg h] at he

lemma replRNT_idem (c : Char) : replRNT (replRNT c) = replRNT c := by
  unfold replRNT
  by_cases h : (c = '\r' || c = '\n' || c = '\t') = true
  · rw [if_pos h, if_neg (by decide)]
  · rw [if_neg h, if_neg h]

lemma lowerChar_replRNT_fix (c : Char) :
    lowerChar (replRNT (lowerChar c)) = replRNT (lowerChar c) := by
  by_cases h : (lowerChar c = '\r' || lowerChar c = '\n' || lowerChar c = '\t') = true
  · rw [show replRNT (lowerChar c) = ' ' from by rw [replRNT, if_pos h]]
    decide
  · rw [show replRNT (lowerChar c) = lowerChar c from by rw [replRNT, if_neg h]]
    exact lowerChar_idem c

lemma mem_collapseWsGo : ∀ (l : List Char) (b : Bool) (c : Char),
    c ∈ collapseWsGo l b → c = ' ' ∨ c ∈ l
  | [], _, c, h => absurd h (List.not_mem_nil c)
  | a :: r, b, c, h => by
    by_cases ha : isSpaceChar a = true
    · rw [collapseWsGo, if_pos ha] at h
      cases b with
      | true =>
        rw [if_pos rfl] at h
        rcases mem_collapseWsGo r true c h with h1 | h1
        · exact Or.inl h1
        · exact Or.inr (List.mem_cons_of_mem _ h1)
      | false =>
        rw [if_neg (by decide)] at h
        simp only [List.mem_cons] at h
        rcases h with rfl | h
        · exact Or.inl rfl
        · rcases mem_collapseWsGo r true c h with h1 | h1
          · exact Or.inl h1
          · exact Or.inr (List.mem_cons_of_mem _ h1)
    · rw [collapseWsGo, if_neg ha] at h
      simp only [List.mem_cons] at h
      rcases h with rfl | h
      · exact Or.inr (List.mem_cons_self _ _)
      · rcases mem_collapseWsGo r false c h with h1 | h1
        · exact Or.inl h1
        · exact Or.inr (List.mem_cons_of_mem _ h1)



lemma collapse_headOk : ∀ (l : List Char) (c : Char),
    (collapseWsGo l true).head? = some c → isSpaceChar c = false
  | [], c, h => by simp [collapseWsGo] at h
  | a :: r, c, h => by
    by_cases ha : isSpaceChar a = true
    · rw [collapseWsGo, if_pos ha, if_pos rfl] at h
      exact collapse_headOk r c h
    · rw [collapseWsGo, if_neg ha] at h
      simp only [List.head?_cons, Option.some.injEq] at h
      subst h
      exact Bool.eq_false_iff.mpr ha

lemma collapse_chain : ∀ (l : List Char) (b : Bool), List.Chain' spR (collapseWsGo l b)
  | [], _ => by simp [collapseWsGo]
  | a :: r, b => by
    by_cases ha : isSpaceChar a = true
    · rw [collapseWsGo, if_pos ha]
      cases b with
      | true => rw [if_pos rfl]; exact collapse_chain r true
      | false =>
        rw [if_neg (by decide)]
        refine List.chain'_cons'.mpr ⟨?_, collapse_chain r true⟩
        intro y hy
        exact fun hc => by rw [collapse_headOk r y hy] at hc; exact absurd hc.2 (by simp)
    · rw [collapseWsGo, if_neg ha]
      refine List.chain'_cons'.mpr ⟨?_, collapse_chain r false⟩
      intro y hy
      exact fun hc => ha hc.1

lemma collapse_blank : ∀ (l : List Char) (b : Bool) (c : Char),
    c ∈ collapseWsGo l b → isSpaceChar c = true → c = ' '
  | [], _, c, h, _ => absurd h (List.not_mem_nil c)
  | a :: r, b, c, h, hs => by
    by_cases ha : isSpaceChar a = true
    · rw [collapseWsGo, if_pos ha] at h
      cases b with
      | true => exact collapse_blank r true c h hs
      | false =>
        rw [if_neg (by decide)] at h
        rcases List.mem_cons.mp h with rfl | h
        · rfl
        · exact collapse_blank r true c h hs
    · rw [collapseWsGo, if_neg ha] at h
      rcases List.mem_cons.mp h with rfl | h
      · exact absurd hs ha
      · exact collapse_blank r false c h hs

lemma collapseWsGo_true_eq_false {l : List Char}
    (h : ∀ c, l.head? = some c → isSpaceChar c = false) :
    collapseWsGo l true = collapseWsGo l false := by
  cases l with
  | nil => rfl
  | cons a r =>
    have ha := h a rfl
    rw [collapseWsGo, if_neg (by simp [ha]), collapseWsGo, if_neg (by simp [ha])]

lemma collapse_fix : ∀ l : List Char, List.Chain' spR l →
    (∀ c ∈ l, isSpaceChar c = true → c = ' ') → collapseWsGo l false = l
  | [], _, _ => rfl
  | a :: r, hch, hbl => by
    obtain ⟨hhead, htail⟩ := List.chain'_cons'.mp hch
    by_cases ha : isSpaceChar a = true
    · have ha' : a = ' ' := hbl a (List.mem_cons_self a r) ha
      rw [collapseWsGo, if_pos ha, if_neg (by decide)]
      have hro : ∀ c, r.head? = some c → isSpaceChar c = false := by
        intro c hc
        have := hhead c hc
        rw [spR] at this
        by_cases hcs : isSpaceChar c = true
        · exact absurd ⟨ha, hcs⟩ this
        · exact Bool.eq_false_iff.mpr hcs
      rw [collapseWsGo_true_eq_false hro,
        collapse_fix r htail (fun c hc => hbl c (List.mem_cons_of_mem _ hc)), ha']
    · rw [collapseWsGo, if_neg ha,
        collapse_fix r htail (fun c hc => hbl c (List.mem_cons_of_mem _ hc))]

lemma dropWhile_headOk (p : Char → Bool) : ∀ (l : List Char) (c : Char),
    (l.dropWhile p).head? = some c → p c = false
  | [], c, h => by simp at h
  | a :: r, c, h => by
    rw [List.dropWhile_cons] at h
    by_cases ha : p a = true
    · rw [if_pos ha] at h
      exact dropWhile_headOk p r c h
    · rw [if_neg ha] at h
      simp only [List.head?_cons, Option.some.injEq] at h
      subst h
      exact Bool.eq_false_iff.mpr ha

lemma dropWhile_id {p : Char → Bool} {l : List Char}
    (h : ∀ c, l.head? = some c → p c = false) : l.dropWhile p = l := by
  cases l with
  | nil => rfl
  | cons a r => rw [List.dropWhile_cons, if_neg (by simp [h a rfl])]

lemma mem_pyStrip {l : List Char} {c : Char} (h : c ∈ pyStrip l) : c ∈ l := by
  unfold pyStrip at h
  rw [List.mem_reverse] at h
  have h2 := (List.dropWhile_suffix isSpaceChar).sublist.subset h
  rw [List.mem_reverse] at h2
  exact (List.dropWhile_suffix isSpaceChar).sublist.subset h2

lemma strip_lastOk (l : List Char) (c : Char)
    (h : (pyStrip l).getLast? = some c) : isSpaceChar c = false := by
  unfold pyStrip at h
  rw [List.getLast?_reverse] at h
  exact dropWhile_headOk _ _ _ h

lemma strip_headOk (l : List Char) (c : Char)
    (h : (pyStrip l).head? = some c) : isSpaceChar c = false := by
  unfold pyStrip at h
  rw [List.head?_reverse] at h
  obtain ⟨t, ht⟩ := List.dropWhile_suffix (l := (l.dropWhile isSpaceChar).reverse) isSpaceChar
  have hne : ((l.dropWhile isSpaceChar).reverse).dropWhile isSpaceChar ≠ [] := by
    intro he
    rw [he] at h
    simp at h
  have h2 : ((l.dropWhile isSpaceChar).reverse).getLast? = some c := by
    rw [← ht, List.getLast?_append_of_ne_nil t hne]
    exact h
  rw [List.getLast?_reverse] at h2
  exact dropWhile_headOk _ _ _ h2

lemma strip_chain {l : List Char} (h : List.Chain' spR l) :
    List.Chain' spR (pyStrip l) := by
  have hsymm : ∀ m : List Char, List.Chain' spR m → List.Chain' spR m.reverse := by
    intro m hm
    rw [List.chain'_reverse]
    exact hm.imp (fun a b hab => fun hc => hab ⟨hc.2, hc.1⟩)
  unfold pyStrip
  exact hsymm _ ((hsymm _ (h.suffix (List.dropWhile_suffix _))).suffix (List.dropWhile_suffix _))

lemma strip_fix {l : List Char}
    (hh : ∀ c, l.head? = some c → isSpaceChar c = false)
    (hl : ∀ c, l.getLast? = some c → isSpaceChar c = false) : pyStrip l = l := by
  unfold pyStrip
  rw [dropWhile_id hh]
  rw [dropWhile_id (fun c hc => hl c (by rwa [List.head?_reverse] at hc))]
  exact List.reverse_reverse l



lemma replRNT_eq_special {y d : Char} (hd : d = '%' ∨ d = '+' ∨ d = '&')
    (he : replRNT y = d) : y = d := by
  by_cases h : (y = '\r' || y = '\n' || y = '\t') = true
  · exfalso
    rw [replRNT, if_pos h] at he
    rcases hd with rfl | rfl | rfl <;> exact absurd he (by decide)
  · rwa [replRNT, if_neg h] at he

/-- C4 (amended): `decode` is idempotent on every string free of the
percent, plus and ampersand characters; on such input the three decode
stages are the identity and the remaining pipeline (lower-casing,
whitespace replacement, collapsing, trimming) is a closure.  In general
idempotence fails (see the counterexample): a deeply nested
percent-encoding can exhaust the three rounds and leave decodable text
behind. -/
theorem normalize_for_tfidf_idem (l : List Char)
    (h : ∀ c ∈ l, c ≠ '%' ∧ c ≠ '+' ∧ c ≠ '&') :
    normalize_for_tfidf (normalize_for_tfidf l) = normalize_for_tfidf l := by
  have hp : '+' ∉ l := fun hm => (h _ hm).2.1 rfl
  have hpc : '%' ∉ l := fun hm => (h _ hm).1 rfl
  have ha : '&' ∉ l := fun hm => (h _ hm).2.2 rfl
  have e1 : normalize_for_tfidf l =
      pyStrip (collapseWs ((l.map lowerChar).map replRNT)) := normalize_clean_eq hp hpc ha
  rw [e1]
  set m := (l.map lowerChar).map replRNT with hm
  set out := pyStrip (collapseWs m) with hout
  have hmem : ∀ c ∈ out, c = ' ' ∨ ∃ c0 ∈ l, c = replRNT (lowerChar c0) := by
    intro c hc
    rcases mem_collapseWsGo _ _ _ (mem_pyStrip hc) with h1 | h1
    · exact Or.inl h1
    · rw [hm] at h1
      obtain ⟨c1, hc1, rfl⟩ := List.mem_map.1 h1
      obtain ⟨c0, hc0, rfl⟩ := List.mem_map.1 hc1
      exact Or.inr ⟨c0, hc0, rfl⟩
  have hclean : ∀ c ∈ out, c ≠ '%' ∧ c ≠ '+' ∧ c ≠ '&' := by
    intro c hc
    rcases hmem c hc with rfl | ⟨c0, hc0, rfl⟩
    · exact ⟨by decide, by decide, by decide⟩
    · refine ⟨fun he => ?_, fun he => ?_, fun he => ?_⟩
      · exact (h c0 hc0).1 (lowerChar_eq_special (Or.inl rfl)
          (replRNT_eq_special (Or.inl rfl) he))
      · exact (h c0 hc0).2.1 (lowerChar_eq_special (Or.inr (Or.inl rfl))
          (replRNT_eq_special (Or.inr (Or.inl rfl)) he))
      · exact (h c0 hc0).2.2 (lowerChar_eq_special (Or.inr (Or.inr rfl))
          (replRNT_eq_special (Or.inr (Or.inr rfl)) he))
  have e2 : normalize_for_tfidf out =
      pyStrip (collapseWs ((out.map lowerChar).map replRNT)) :=
    normalize_clean_eq (fun hm' => (hclean _ hm').2.1 rfl)
      (fun hm' => (hclean _ hm').1 rfl) (fun hm' => (hclean _ hm').2.2 rfl)
  have elow : out.map lowerChar = out := by
    rw [List.map_congr_left (fun c hc => ?_), List.map_id']
    rcases hmem c hc with rfl | ⟨c0, _, rfl⟩
    · decide
    · exact lowerChar_replRNT_fix c0
  have erep : out.map replRNT = out := by
    rw [List.map_congr_left (fun c hc => ?_), List.map_id']
    rcases hmem c hc with rfl | ⟨c0, _, rfl⟩
    · decide
    · exact replRNT_idem (lowerChar c0)
  have hchain : List.Chain' spR out := strip_chain (collapse_chain m false)
  have hblank : ∀ c ∈ out, isSpaceChar c = true → c = ' ' :=
    fun c hc hs => collapse_blank m false c (mem_pyStrip hc) hs
  have ecol : collapseWs out = out := collapse_fix out hchain hblank
  have estrip : pyStrip out = out :=
    strip_fix (strip_headOk _) (strip_lastOk _)
  rw [e2, elow, erep, ecol, estrip]

/-- C4 counterexample: `decode` is not idempotent.  The triply
percent-encoded input `%25252528` consumes all three decode rounds and
comes out as `%28`, which a second application of `decode` turns into
`(`. -/
theorem decode_not_idempotent_counterexample :
    normalize_for_tfidf (normalize_for_tfidf "%25252528".data) ≠
      normalize_for_tfidf "%25252528".data ∧
    normalize_for_tfidf "%25252528".data = "%28".data ∧
    normalize_for_tfidf "%28".data = "(".data := by decide

/-- Witness for C4 at a concrete percent-, plus- and ampersand-free
string. -/
theorem normalize_for_tfidf_idem_witness :
    (∀ c ∈ ("Select * FROM users  WHERE id=1".data), c ≠ '%' ∧ c ≠ '+' ∧ c ≠ '&') ∧
    normalize_for_tfidf (normalize_for_tfidf "Select * FROM users  WHERE id=1".data) =
      normalize_for_tfidf "Select * FROM users  WHERE id=1".data :=
  ⟨by decide, normalize_for_tfidf_idem _ (by decide)⟩

/-- Helper: `filterMap` preserves length when every element maps to
`some`. -/
lemma length_filterMap_of_isSome {α β : Type} (f : α → Option β) :
    ∀ m : List α, (∀ l ∈ m, (f l).isSome = true) → (m.filterMap f).length = m.length
  | [], _ => rfl
  | a :: r, h => by
    obtain ⟨b, hb⟩ := Option.isSome_iff_exists.mp (h a (List.mem_cons_self a r))
    simp [List.filterMap_cons, hb,
      length_filterMap_of_isSome f r (fun l hl => h l (List.mem_cons_of_mem _ hl))]

/-- C6 counterexample: a two-line file whose first line is valid JSON
(the record `{"headers": "x"}`) and whose second line is malformed
yields zero records, not one — `parse_log_item` raises on the valid
record and the bare `except` of the loop drops it. -/
theorem load_logs_valid_line_dropped :
    (jsonParse "\x7b\"headers\": \"x\"\x7d").isSome = true ∧
    (jsonParse "\x7boops").isSome = false ∧
    load_logs "T" (some ("\x7b\"headers\": \"x\"\x7d\n\x7boops")) = [] := by decide

/-- C6 (amended): for a newline-delimited file whose stripped content
does not start with `[`, containing M lines that each parse as JSON and
normalize without raising plus one malformed line, `load_logs` returns
exactly the M normalized records in original order; an unreadable file
yields the empty list. -/
theorem load_logs_spec (now raw : String) (pre post : List (List Char)) (bad : List Char)
    (hsplit : splitLines raw.data = pre ++ bad :: post)
    (hbra : (pyStrip raw.data).headD ' ' ≠ '[')
    (hbad : loadLogsLine now bad = none)
    (hok : ∀ l ∈ pre ++ post, (loadLogsLine now l).isSome = true) :
    load_logs now (some raw) =
      pre.filterMap (loadLogsLine now) ++ post.filterMap (loadLogsLine now) ∧
    (load_logs now (some raw)).length = pre.length + post.length ∧
    load_logs now none = [] := by
  have hmain : load_logs now (some raw) =
      (splitLines raw.data).filterMap (loadLogsLine now) := by
    simp only [load_logs]
    rw [if_neg hbra]
  have hsplit2 : load_logs now (some raw) =
      pre.filterMap (loadLogsLine now) ++ post.filterMap (loadLogsLine now) := by
    rw [hmain, hsplit, List.filterMap_append]
    simp [List.filterMap_cons, hbad]
  refine ⟨hsplit2, ?_, rfl⟩
  rw [hsplit2, List.length_append,
    length_filterMap_of_isSome _ pre (fun l hl => hok l (List.mem_append_left _ hl)),
    length_filterMap_of_isSome _ post (fun l hl => hok l (List.mem_append_right _ hl))]

/-- Witness for C6 at a concrete three-line file with one malformed
line. -/
theorem load_logs_spec_witness :
    (splitLines ("\x7b\"a\": 1\x7d\nnope\n\x7b\"url\": \"/x\"\x7d" : String).data =
      ["\x7b\"a\": 1\x7d".data] ++ "nope".data :: ["\x7b\"url\": \"/x\"\x7d".data]) ∧
    ((pyStrip ("\x7b\"a\": 1\x7d\nnope\n\x7b\"url\": \"/x\"\x7d" : String).data).headD ' ' ≠ '[') ∧
    (loadLogsLine "T" "nope".data = none) ∧
    (∀ l ∈ ["\x7b\"a\": 1\x7d".data] ++ ["\x7b\"url\": \"/x\"\x7d".data],
      (loadLogsLine "T" l).isSome = true) ∧
    (load_logs "T" (some "\x7b\"a\": 1\x7d\nnope\n\x7b\"url\": \"/x\"\x7d") =
      (["\x7b\"a\": 1\x7d".data]).filterMap (loadLogsLine "T") ++
        (["\x7b\"url\": \"/x\"\x7d".data]).filterMap (loadLogsLine "T") ∧
    (load_logs "T" (some "\x7b\"a\": 1\x7d\nnope\n\x7b\"url\": \"/x\"\x7d")).length = 1 + 1 ∧
    load_logs "T" none = []) :=
  ⟨by decide, by decide, by decide, by decide,
    load_logs_spec "T" "\x7b\"a\": 1\x7d\nnope\n\x7b\"url\": \"/x\"\x7d"
      ["\x7b\"a\": 1\x7d".data] ["\x7b\"url\": \"/x\"\x7d".data] "nope".data
      (by decide) (by decide) (by decide) (by decide)⟩

/-- Helper: filtering for a single member of a duplicate-free list. -/
lemma filter_eq_singleton_of_nodup :
    ∀ (l : List Nat), l.Nodup → ∀ k ∈ l, l.filter (fun c => c == k) = [k]
  | [], _, k, hk => absurd hk (List.not_mem_nil k)
  | a :: r, hnd, k, hk => by
    rcases List.mem_cons.mp hk with rfl | hk2
    · have hnotk : k ∉ r := (List.nodup_cons.mp hnd).1
      have : r.filter (fun c => c == k) = [] := by
        rw [List.filter_eq_nil_iff]
        intro b hb
        simp only [beq_iff_eq]
        exact fun he => hnotk (he ▸ hb)
      simp [List.filter_cons, this]
    · have hka : ¬(a == k) = true := by
        simp only [beq_iff_eq]
        intro he
        exact (List.nodup_cons.mp hnd).1 (he ▸ hk2)
      simp only [List.filter_cons, hka, if_neg]
      exact filter_eq_singleton_of_nodup r (List.nodup_cons.mp hnd).2 k hk2

/-- C7: with a duplicate-free subscriber list in which exactly
subscriber `k` fails on send, one `broadcast` delivers the alert to all
other subscribers (the failure does not block any other delivery),
leaves exactly the other subscribers registered (`k` removed once), and
a repeat broadcast on the remaining list fails for no subscriber and
removes nobody. -/
theorem broadcast_single_failure (clients : List Nat) (k : Nat)
    (hnd : clients.Nodup) (hk : k ∈ clients) :
    (broadcast (fun c => c == k) clients).1 = clients.erase k ∧
    (broadcast (fun c => c == k) clients).2 = clients.erase k ∧
    (broadcast (fun c => c == k) clients).1.length + 1 = clients.length ∧
    broadcast (fun c => c == k) ((broadcast (fun c => c == k) clients).2) =
      (clients.erase k, clients.erase k) := by
  have hfilter : clients.filter (fun c => !(c == k)) = clients.erase k := by
    rw [List.Nodup.erase_eq_filter hnd]
    rfl
  have hdead : clients.filter (fun c => c == k) = [k] :=
    filter_eq_singleton_of_nodup clients hnd k hk
  have h1 : (broadcast (fun c => c == k) clients).1 = clients.erase k := by
    simp only [broadcast]
    exact hfilter
  have h2 : (broadcast (fun c => c == k) clients).2 = clients.erase k := by
    simp only [broadcast, hdead]
    rfl
  have hpos : 0 < clients.length := List.length_pos.mpr (List.ne_nil_of_mem hk)
  refine ⟨h1, h2, ?_, ?_⟩
  · rw [h1, List.length_erase_of_mem hk]
    omega
  · rw [h2]
    have hke : ∀ c ∈ clients.erase k, ¬(c == k) = true := by
      intro c hc
      simpa using ((List.Nodup.mem_erase_iff hnd).1 hc).1
    have hf1 : (clients.erase k).filter (fun c => !(c == k)) = clients.erase k :=
      List.filter_eq_self.mpr (fun c hc => by simpa using hke c hc)
    have hf2 : (clients.erase k).filter (fun c => c == k) = [] :=
      List.filter_eq_nil_iff.mpr hke
    simp only [broadcast, hf1, hf2]
    rfl

/-- Witness for C7 at a concrete three-subscriber hub. -/
theorem broadcast_single_failure_witness :
    ([1, 2, 3] : List Nat).Nodup ∧ 2 ∈ ([1, 2, 3] : List Nat) ∧
    ((broadcast (fun c => c == 2) [1, 2, 3]).1 = [1, 3] ∧
     (broadcast (fun c => c == 2) [1, 2, 3]).2 = [1, 3] ∧
     (broadcast (fun c => c == 2) [1, 2, 3]).1.length + 1 = 3 ∧
     broadcast (fun c => c == 2) ((broadcast (fun c => c == 2) [1, 2, 3]).2) =
       ([1, 3], [1, 3])) :=
  ⟨by decide, by decide, broadcast_single_failure [1, 2, 3] 2 (by decide) (by decide)⟩

/-- C8: evaluation of the `ws_alerts` per-message step at a concrete
hub: with clients `[0, 1, 2]` and client `1` as the sender of the
event, the alert is delivered to `[0, 1, 2]` — the sender included —
because the handler broadcasts to the full client list without
excluding the sender, against its own comment and the claim. -/
theorem ws_alerts_step_sender_receives :
    (ws_alerts_step 1 (fun _ => false) [0, 1, 2]).1 = [0, 1, 2] ∧
    1 ∈ (ws_alerts_step 1 (fun _ => false) [0, 1, 2]).1 := by decide

/-- Helper: `attackKey` on an object row is the total variant. -/
lemma attackKey_eq_of_isObj {j : Json} (h : isObjB j = true) :
    attackKey j = .ok (attackKeyD j) := by
  cases j <;> simp_all [isObjB, attackKey, attackKeyD]

/-- Helper: mapping `attackKey` over all-object rows succeeds with the
total key of each row. -/
lemma mapM_attackKey_of_obj :
    ∀ rows : List Json, (∀ r ∈ rows, isObjB r = true) →
      rows.mapM attackKey = .ok (rows.map attackKeyD)
  | [], _ => rfl
  | r :: rest, h => by
    rw [List.mapM_cons, attackKey_eq_of_isObj (h r (List.mem_cons_self r rest)),
      mapM_attackKey_of_obj rest (fun x hx => h x (List.mem_cons_of_mem _ hx))]
    rfl

/-- Helper: `filterMap` over a replicated element that maps to `some`. -/
lemma filterMap_replicate_some {α β : Type} {f : α → Option β} {a : α} {b : β}
    (hb : f a = some b) : ∀ n, (List.replicate n a).filterMap f = List.replicate n b
  | 0 => rfl
  | n + 1 => by
    rw [List.replicate_succ, List.replicate_succ]
    simp [List.filterMap_cons, hb, filterMap_replicate_some hb n]

/-- Helper: rows of a file made of identical valid JSON lines. -/
lemma read_jsonl_rows_replicate (line : List Char) (j : Json)
    (he : (pyStrip line).isEmpty = false)
    (hp : jsonParse (String.mk (pyStrip line)) = some j) :
    ∀ n, read_jsonl_rows (List.replicate n line) = List.replicate n j := by
  intro n
  unfold read_jsonl_rows
  apply filterMap_replicate_some
  simp [he, hp]

/-- C9 counterexample: a persisted file of 5001 valid JSON records
reports `total = 5000`, because `read_jsonl` slices `rows[-5000:]` with
its default limit before `stats` counts. -/
theorem stats_total_capped :
    (read_jsonl_rows (List.replicate 5001 c9line.data)).length = 5001 ∧
    (stats (some (List.replicate 5001 c9line.data))).map Prod.fst = .ok 5000 ∧
    (5001 : Nat) ≠ 5000 := by
  obtain ⟨j, hj⟩ := Option.isSome_iff_exists.mp
    (show (jsonParse (String.mk (pyStrip c9line.data))).isSome = true from by decide)
  have hrows := read_jsonl_rows_replicate c9line.data j (by decide) hj
  have hobj : isObjB j = true := by
    have hd : ((jsonParse (String.mk (pyStrip c9line.data))).map isObjB).getD false = true := by
      decide
    rw [hj] at hd
    simpa using hd
  have hwin : read_jsonl (some (List.replicate 5001 c9line.data)) 5000 =
      List.replicate 5000 j := by
    simp only [read_jsonl, pyLastSlice]
    rw [hrows 5001, if_neg (by omega), List.length_replicate,
      show (5001 : Nat) - 5000 = 1 from rfl, List.replicate_succ, List.drop_one]
    rfl
  refine ⟨by rw [hrows 5001, List.length_replicate], ?_, by omega⟩
  have hstats : stats (some (List.replicate 5001 c9line.data)) =
      .ok ((List.replicate 5000 j).length, (List.replicate 5000 j).map attackKeyD) := by
    simp only [stats]
    rw [hwin, mapM_attackKey_of_obj _ (fun r hr => (List.eq_of_mem_replicate hr) ▸ hobj)]
  rw [hstats, List.length_replicate]
  rfl

/-- C9 (amended): the stats endpoint reports as total the number of
valid JSON records among the last 5000 of the file; whenever the file
holds at most 5000 valid records — all objects, as result records are —
the total is the count of all valid records in the file, and the
reported Counter keys are the per-record categories in file order (the
breakdown count of one category is `categoryCount` over those keys).
An absent file reports zero records. -/
theorem stats_spec (lines : List (List Char))
    (hlen : (read_jsonl_rows lines).length ≤ 5000)
    (hobj : ∀ r ∈ read_jsonl_rows lines, isObjB r = true) :
    stats (some lines) = .ok ((read_jsonl_rows lines).length,
      (read_jsonl_rows lines).map attackKeyD) ∧
    stats none = .ok (0, []) := by
  have hwin : read_jsonl (some lines) 5000 = read_jsonl_rows lines := by
    simp only [read_jsonl, pyLastSlice]
    rw [if_neg (by omega), show (read_jsonl_rows lines).length - 5000 = 0 from by omega,
      List.drop_zero]
  constructor
  · simp only [stats]
    rw [hwin, mapM_attackKey_of_obj _ hobj]
  · rfl

/-- Witness for C9 at a concrete four-line file with a blank and a
malformed line. -/
theorem stats_spec_witness :
    ((read_jsonl_rows [c9line.data, "nope".data, "".data, c9line.data]).length ≤ 5000) ∧
    (∀ r ∈ read_jsonl_rows [c9line.data, "nope".data, "".data, c9line.data],
      isObjB r = true) ∧
    (stats (some [c9line.data, "nope".data, "".data, c9line.data]) =
      .ok ((read_jsonl_rows [c9line.data, "nope".data, "".data, c9line.data]).length,
        (read_jsonl_rows [c9line.data, "nope".data, "".data, c9line.data]).map attackKeyD) ∧
     stats none = .ok (0, [])) :=
  ⟨by decide, by decide, stats_spec _ (by decide) (by decide)⟩

end ATDM
